import Mathlib

/-!
A shallow embedding of the resumable execution engine of the `resumable`
repository (files `src/resumable/runtime/core.py`,
`src/resumable/runtime/expression_evaluator.py` and
`src/resumable/runtime/resumable.py`), together with theorems settling the
frozen claims about it.

Modelling conventions:
* Python runtime values (ints, bools, strings, `None`) become the inductive
  `Value`; the Python literal `None` is `Value.null`.
* The mutable, aliased `Env` objects become an explicit heap: a list of
  `Scope`s addressed by their index (`EnvId`).  `parent_env` is a heap
  address, so re-chaining (`self._env.parent_env = env`) is a heap update.
* Exception-based control flow (`YieldValue`, `ReturnValue`, `ResumableDone`,
  and the runtime errors) becomes the explicit `Outcome` of a `resume` step.
* Nontermination (the `while True` loop of `ResumableWhile.resume`, the
  statement loop of a block, and `collect_values`) is handled with fuel:
  every driver returns `Option _`, where `none` means "out of fuel" and is
  distinct from every behaviour of the program.
* The debug writer (`context.writer`) is modelled as an event trace.  Only
  the debug lines that matter to the verified properties are recorded
  (condition evaluations and the `on_resumable_done` invocation); the
  remaining purely-textual debug output is elided.
-/

namespace ResumableEngine

/-- Python runtime values flowing through the engine (`Value = Any` in
`core.py`, restricted to the value kinds the language produces: integers,
booleans, strings and `None`). `Value.null` is Python's `None`. -/
inductive Value where
  | int (n : Int)
  | bool (b : Bool)
  | str (s : String)
  | null
  deriving DecidableEq, Repr

/-- Python truthiness (`if value:`): `None`, `False`, `0` and `""` are falsy. -/
def truthy : Value → Bool
  | .null => false
  | .bool b => b
  | .int n => n != 0
  | .str s => s != ""

/-- The binary operators of `ast_expressions.BinaryOp`.  Float division `/`
is not modelled (host floating point is outside the embedding); no verified
claim mentions it. -/
inductive BinaryOp where
  | add | sub | mul | eq | le | lt | mod
  deriving DecidableEq, Repr

/-- Expressions (`frontend/ast_expressions.py`).  `Call` is not modelled:
evaluating a call needs the whole callable table of the interpreter and no
verified claim exercises a call inside a generator body. -/
inductive Expression where
  | literal (value : Value)
  | var (name : String)
  | binary (left right : Expression) (op : BinaryOp)
  | neg (expr : Expression)
  deriving DecidableEq, Repr

/-- Runtime errors of the engine.  Each constructor names the Python
exception it stands for. -/
inductive RError where
  /-- `KeyError` from `Env.__getitem__` / `Env.__setitem__`: unbound name. -/
  | undefinedVariable (name : String)
  /-- `TypeError` from applying an operator to incompatible operands. -/
  | typeMismatch
  /-- `ZeroDivisionError` from `mod` with divisor `0`. -/
  | zeroDivision
  /-- `InvalidOperation` (`core.py`): resuming a resumable in the `done`
  state (`Resumable._raise_if_done`). -/
  | invalidOperation
  /-- `KeyError` from the `_instructions` dispatch dict of `ResumableIf` /
  `ResumableWhile` when the cursor is not a key of the dict. -/
  | dispatchKeyError
  /-- `ValueError("`new` needs to be invoked...")`: resuming a generator
  template that was never instantiated. -/
  | templateNotInstantiated
  /-- `AssertionError` (the `assert parent.index is not None` in
  `try_run_resumable.update_parent_index`). -/
  | assertionFailure
  /-- `RuntimeError("Unreachable state: ...")` at the end of
  `Generator.resume`. -/
  | unreachableState
  /-- `ValueError("Expected arguments as a dictionary-like mapping")`. -/
  | argsNotMapping
  /-- `ValueError("Required arguments are missing: ...")`. -/
  | missingArguments (names : List String)
  /-- `ValueError("Unexpected arguments: ...")`. -/
  | unexpectedArguments (names : List String)
  /-- `ValueError("Duplicate parameter names: ...")`. -/
  | duplicateParameters (names : List String)
  deriving DecidableEq, Repr

/-! ## The environment heap (`core.py`, class `Env`) -/

/-- Address of an `Env` object in the heap. -/
abbrev EnvId := Nat

/-- One `Env` object: its `parent_env` pointer and its `_key_values` dict
(insertion-ordered association list, as a Python dict). -/
structure Scope where
  parentEnv : Option EnvId
  keyValues : List (String × Value)
  deriving DecidableEq, Repr

/-- The heap of `Env` objects; an `EnvId` is an index into this list. -/
abbrev Heap := List Scope

/-- Local dict lookup (`key in self._key_values` / read). -/
def Scope.get? (s : Scope) (key : String) : Option Value :=
  s.keyValues.lookup key

/-- `self._key_values[key] = value`: overwrite in place if present,
otherwise append (Python dicts keep insertion order). -/
def Scope.store (s : Scope) (key : String) (value : Value) : Scope :=
  if (s.keyValues.lookup key).isSome then
    { s with keyValues :=
        s.keyValues.map (fun kv => if kv.1 = key then (key, value) else kv) }
  else
    { s with keyValues := s.keyValues ++ [(key, value)] }

/-- `Env.define(key, value)`: always writes in *this* scope only. -/
def envDefine (h : Heap) (i : EnvId) (key : String) (value : Value) : Heap :=
  match h[i]? with
  | some s => h.set i (s.store key value)
  | none => h

/-- `Env.__getitem__`: read `key` walking the `parent_env` chain; `none` is
the `KeyError`.  `fuel` bounds the chain walk; any acyclic heap is fully
explored with `fuel = h.length`. -/
def envRead (fuel : Nat) (h : Heap) (i : EnvId) (key : String) : Option Value :=
  match fuel with
  | 0 => none
  | fuel + 1 =>
    match h[i]? with
    | none => none
    | some s =>
      match s.get? key with
      | some v => some v
      | none =>
        match s.parentEnv with
        | some p => envRead fuel h p key
        | none => none

/-- `Env.__setitem__`: mutate the binding in the first scope of the chain
(this one included) that already contains `key`; `none` is the `KeyError`
(undefined variable). -/
def envWrite (fuel : Nat) (h : Heap) (i : EnvId) (key : String) (value : Value) :
    Option Heap :=
  match fuel with
  | 0 => none
  | fuel + 1 =>
    match h[i]? with
    | none => none
    | some s =>
      if (s.keyValues.lookup key).isSome then
        some (h.set i (s.store key value))
      else
        match s.parentEnv with
        | some p => envWrite fuel h p key value
        | none => none

/-- `self._env.parent_env = env`: re-chain an `Env`'s enclosing pointer. -/
def envSetParent (h : Heap) (i : EnvId) (parent : Option EnvId) : Heap :=
  match h[i]? with
  | some s => h.set i { s with parentEnv := parent }
  | none => h

/-- `Env(args)`: allocate a fresh scope with no parent, seeded by `define`-ing
each argument in order (`Env.__init__`).  Returns the heap and the new id. -/
def envAlloc (h : Heap) (args : List (String × Value)) : Heap × EnvId :=
  (h ++ [⟨none, args.foldl (fun kvs kv => (Scope.mk none kvs).store kv.1 kv.2
            |>.keyValues) []⟩], h.length)

/-! ## Expression evaluation (`expression_evaluator.py`) -/

/-- Coerce to `Int` for arithmetic, as Python does (`bool` is an `int`). -/
def Value.asInt? : Value → Option Int
  | .int n => some n
  | .bool b => some (if b then 1 else 0)
  | _ => none

/-- Python `==` on the modelled value domain (`operator.eq`): numeric values
compare numerically (`True == 1`), strings compare as strings, `None` only
equals `None`, everything else is unequal. -/
def pyEq (a b : Value) : Bool :=
  match a.asInt?, b.asInt? with
  | some x, some y => x == y
  | _, _ =>
    match a, b with
    | .str x, .str y => x == y
    | .null, .null => true
    | _, _ => false

/-- The `_binary_ops` table.  Results follow host (Python) semantics on the
modelled value domain: arithmetic and ordering on numbers (`bool` counts as
an `int`), `+` also concatenates strings, `mod` is Python `%` (sign of the
divisor, i.e. `Int.fmod`), `==` is `pyEq`.  Incompatible operands are the
`TypeError` (`.typeMismatch`). -/
def evalBinOp (op : BinaryOp) (a b : Value) : Except RError Value :=
  match op with
  | .eq => .ok (.bool (pyEq a b))
  | .add =>
    match a, b with
    | .str x, .str y => .ok (.str (x ++ y))
    | _, _ =>
      match a.asInt?, b.asInt? with
      | some x, some y => .ok (.int (x + y))
      | _, _ => .error .typeMismatch
  | .sub =>
    match a.asInt?, b.asInt? with
    | some x, some y => .ok (.int (x - y))
    | _, _ => .error .typeMismatch
  | .mul =>
    match a.asInt?, b.asInt? with
    | some x, some y => .ok (.int (x * y))
    | _, _ => .error .typeMismatch
  | .mod =>
    match a.asInt?, b.asInt? with
    | some x, some y =>
      if y = 0 then .error .zeroDivision else .ok (.int (Int.fmod x y))
    | _, _ => .error .typeMismatch
  | .lt =>
    match a.asInt?, b.asInt? with
    | some x, some y => .ok (.bool (x < y))
    | _, _ =>
      match a, b with
      | .str x, .str y => .ok (.bool (decide (x < y)))
      | _, _ => .error .typeMismatch
  | .le =>
    match a.asInt?, b.asInt? with
    | some x, some y => .ok (.bool (x ≤ y))
    | _, _ =>
      match a, b with
      | .str x, .str y => .ok (.bool (decide (x < y) || x == y))
      | _, _ => .error .typeMismatch

/-- `eval_expr(expr, env, context)`.  Reads the heap but never mutates it
(the `Call` case, the only mutating one, is not modelled). -/
def evalExpr (h : Heap) (env : EnvId) : Expression → Except RError Value
  | .literal v => .ok v
  | .var name =>
    match envRead (h.length + 1) h env name with
    | some v => .ok v
    | none => .error (.undefinedVariable name)
  | .binary l r op => do
    let lv ← evalExpr h env l
    let rv ← evalExpr h env r
    evalBinOp op lv rv
  | .neg e => do
    let v ← evalExpr h env e
    match v.asInt? with
    | some n => .ok (.int (-n))
    | none => .error .typeMismatch

/-! ## Runtime state and control signals (`resumable.py`) -/

/-- Events of the debug writer (`context.writer`).  Only the lines relevant
to the verified properties are recorded; each constructor names the source
line it models. -/
inductive TraceEvent where
  /-- `writer.debug(f"evaluating condition ({self.name}): ")` in
  `ResumableIf._execute_condition`, written right before the condition
  expression is evaluated. -/
  | ifCondition
  /-- `writer.debugln(f"evaluating condition ({self.name})...")` in
  `ResumableWhile._execute_condition`. -/
  | whileCondition
  /-- `writer.debugln("invoking on_resumable_done()")` in
  `try_run_resumable`. -/
  | onResumableDone
  /-- `writer.println(...)` in `ResumablePrint.resume`. -/
  | printed (v : Value)
  deriving DecidableEq, Repr

/-- The mutable runtime state threaded through `resume`: the heap of `Env`
objects and the writer trace. -/
structure RState where
  heap : Heap
  trace : List TraceEvent
  deriving DecidableEq, Repr

/-- How one call to a node's `resume` terminates.  In the source, everything
but `normal` is a raised exception. -/
inductive Outcome where
  /-- `resume` returned without raising. -/
  | normal
  /-- `YieldValue(value, sender)` was raised.  `direct = true` iff the sender
  is the node whose `resume` just ran (only `ResumableYield` raises with
  `sender=self`; composite nodes only re-raise a deeper node's signal, so a
  signal escaping a composite node is never `direct` for the caller). -/
  | yielded (value : Value) (direct : Bool)
  /-- `ReturnValue(value, has_value)` was raised; a missing expression is
  carried as `value = .null` (Python `None`). -/
  | returned (value : Value) (hasValue : Bool)
  /-- `ResumableDone` was raised: the subtree finished this pass. -/
  | finished
  /-- A runtime error was raised. -/
  | error (e : RError)
  deriving DecidableEq, Repr

/-- The compiled statement tree (`resumable.py`).  Each cursor-bearing node
carries its `index` (`none` is the terminal `done` sentinel, Python `None`).
The stateless leaves (`NonStatefulResumable` subclasses) carry no cursor. -/
inductive Resumable where
  /-- `ResumableYield` -/
  | yieldStmt (expr : Expression)
  /-- `ResumablePrint` -/
  | printStmt (expr : Expression)
  /-- `ResumableEvaluateExpression` -/
  | exprStmt (expr : Expression)
  /-- `ResumableAssignment` (the `Var`'s name) -/
  | assign (varName : String) (expr : Expression)
  /-- `ResumableDefine` -/
  | defineStmt (varName : String) (initializer : Expression)
  /-- `ResumableReturn` (optional expression) -/
  | returnStmt (expr : Option Expression)
  /-- `ResumableBlock`: cursor, statements, `_own_environment`, and the heap
  address of its private `_env` (`none` when it has no own environment). -/
  | block (index : Option Nat) (statements : List Resumable)
      (ownEnvironment : Bool) (envId : Option EnvId)
  /-- `ResumableWhile`: cursor, condition, body. -/
  | whileStmt (index : Option Nat) (condition : Expression) (body : Resumable)
  /-- `ResumableIf`: cursor, condition, the cached `_condition_value`
  (`Value.null` both initially and when the condition evaluated to `None`,
  exactly as the Python field collapses `Value | None`), and the branches. -/
  | ifStmt (index : Option Nat) (condition : Expression)
      (conditionValue : Value) (thenBranch : Resumable)
      (elseBranch : Option Resumable)
  deriving Repr

/-! ## The generic dispatcher `try_run_resumable` -/

/-- `update_parent_index` inside `try_run_resumable`: the new parent cursor,
or `none` when the `assert parent.index is not None` fails (only possible
when no `next_parent_index` was supplied). -/
def updateParentIndex (parentIndex nextParentIndex : Option Nat) :
    Option (Option Nat) :=
  match nextParentIndex with
  | some n => some (some n)
  | none =>
    match parentIndex with
    | some i => some (some (i + 1))
    | none => none

/-- Result of `try_run_resumable`: the (mutated) child, the state, the
parent's cursor after the call, whether `on_resumable_done` was invoked, and
the signal propagating to the parent's caller (`.normal` when
`try_run_resumable` returns without raising). -/
structure TryRunResult where
  child : Resumable
  state : RState
  parentIndex : Option Nat
  invokedOnDone : Bool
  signal : Outcome
  deriving Repr

/-- The pure core of `try_run_resumable`, applied to the result of
`child.resume`.  The `on_resumable_done` callback is defunctionalised:
`hasOnDone` records whether one was supplied, `invokedOnDone` whether it
ran; the only callback ever passed in the source is `ResumableWhile.reset`,
which the caller applies (`whileBodyStep` below).  A re-raised `YieldValue`
keeps its sender, which can never be the node an *enclosing* frame resumed
(only the childless `ResumableYield` raises with `sender=self`), so the
propagated signal is marked `direct := false`. -/
def tryRunCore (res : Option (Resumable × RState × Outcome))
    (parentIndex nextParentIndex : Option Nat) (hasOnDone : Bool) :
    Option TryRunResult :=
  match res with
  | none => none
  | some (child, st, out) =>
    match out with
    | .normal =>
      match updateParentIndex parentIndex nextParentIndex with
      | some idx => some ⟨child, st, idx, false, .normal⟩
      | none => some ⟨child, st, parentIndex, false, .error .assertionFailure⟩
    | .yielded v direct =>
      if direct then
        match updateParentIndex parentIndex nextParentIndex with
        | some idx => some ⟨child, st, idx, false, .yielded v false⟩
        | none => some ⟨child, st, parentIndex, false, .error .assertionFailure⟩
      else
        some ⟨child, st, parentIndex, false, .yielded v false⟩
    | .finished =>
      match updateParentIndex parentIndex nextParentIndex with
      | some idx =>
        if hasOnDone then
          some ⟨child, { st with trace := st.trace ++ [.onResumableDone] },
            idx, true, .normal⟩
        else
          some ⟨child, st, idx, false, .normal⟩
      | none => some ⟨child, st, parentIndex, false, .error .assertionFailure⟩
    | .returned v hv => some ⟨child, st, parentIndex, false, .returned v hv⟩
    | .error e => some ⟨child, st, parentIndex, false, .error e⟩

/-! ## reset and clone -/

mutual

/-- `Resumable.reset(first_time=False)` (with the `ResumableBlock` and
`ResumableIf` overrides): cursor back to `0`, children reset (depth-first,
in order), a block with its own environment allocates a fresh empty `Env`,
an `If` clears its cached condition value. -/
def resetResumable (node : Resumable) (h : Heap) : Resumable × Heap :=
  match node with
  | .block _ statements own _ =>
    let (statements', h') := resetList statements h
    if own then
      let (h'', e) := envAlloc h' []
      (.block (some 0) statements' own (some e), h'')
    else
      (.block (some 0) statements' own none, h')
  | .whileStmt _ condition body =>
    let (body', h') := resetResumable body h
    (.whileStmt (some 0) condition body', h')
  | .ifStmt _ condition _ thenBranch elseBranch =>
    let (then', h') := resetResumable thenBranch h
    match elseBranch with
    | some eb =>
      let (else', h'') := resetResumable eb h'
      (.ifStmt (some 0) condition .null then' (some else'), h'')
    | none => (.ifStmt (some 0) condition .null then' none, h')
  | leaf => (leaf, h)

/-- Reset a list of children left to right (`Resumable._reset_children`). -/
def resetList (nodes : List Resumable) (h : Heap) : List Resumable × Heap :=
  match nodes with
  | [] => ([], h)
  | n :: rest =>
    let (n', h') := resetResumable n h
    let (rest', h'') := resetList rest h'
    (n' :: rest', h'')

end

mutual

/-- `Resumable.clone`.  Stateless leaves return themselves
(`NonStatefulResumable.clone`); the stateful nodes rebuild themselves from
cloned children, which runs their `__init__` and hence
`reset(first_time=True)`: cursor `0`, fresh empty private `Env` for a block
that owns one, cleared condition cache for an `If`. -/
def cloneResumable (node : Resumable) (h : Heap) : Resumable × Heap :=
  match node with
  | .block _ statements own _ =>
    let (statements', h') := cloneList statements h
    if own then
      let (h'', e) := envAlloc h' []
      (.block (some 0) statements' own (some e), h'')
    else
      (.block (some 0) statements' own none, h')
  | .whileStmt _ condition body =>
    let (body', h') := cloneResumable body h
    (.whileStmt (some 0) condition body', h')
  | .ifStmt _ condition _ thenBranch elseBranch =>
    let (then', h') := cloneResumable thenBranch h
    match elseBranch with
    | some eb =>
      let (else', h'') := cloneResumable eb h'
      (.ifStmt (some 0) condition .null then' (some else'), h'')
    | none => (.ifStmt (some 0) condition .null then' none, h')
  | leaf => (leaf, h)

/-- Clone a list of statements left to right (`ResumableBlock.clone`). -/
def cloneList (nodes : List Resumable) (h : Heap) : List Resumable × Heap :=
  match nodes with
  | [] => ([], h)
  | n :: rest =>
    let (n', h') := cloneResumable n h
    let (rest', h'') := cloneList rest h'
    (n' :: rest', h'')

end

/-! ## The suspend/resume protocol

`Resumable.resume` and its helpers mirror the `resume` methods of
`resumable.py` node for node.  `fuel` makes the two genuinely unbounded
loops (`ResumableWhile.resume`'s `while True` and the statement loop of
`ResumableBlock._execute_statements`) and the recursion through the mutated
tree total.  To keep the definitions computable by plain `Nat` recursion,
the mutually recursive resume procedures are gathered in one structure
built level by level: `engine (fuel+1)` performs one step of any procedure,
delegating every nested call to `engine fuel`; running out of fuel yields
`none`, which is distinct from every behaviour of the program. -/

/-- The mutually recursive resume procedures at one fuel level. -/
structure EngineFns where
  /-- One call to `node.resume(env, context)`: the node with updated
  cursors, the new state, and how the call terminated. -/
  resume : Resumable → EnvId → RState → Option (Resumable × RState × Outcome)
  /-- The statement loop of `ResumableBlock._execute_statements`: run the
  statements from the saved cursor via `try_run_resumable(statement, ...,
  next_parent_index=index+1)`.  Returns the updated statements, the block's
  cursor, the state, and `some signal` when an exception propagates out of
  the loop (`none` when the loop ran off the end of the list). -/
  blockSteps : List Resumable → Nat → EnvId → RState →
    Option (List Resumable × Option Nat × RState × Option Outcome)
  /-- The `while True` dispatch loop of `ResumableWhile.resume`:
  `self._instructions[self.index](env, context)` until something raises. -/
  whileLoop : Option Nat → Expression → Resumable → EnvId → RState →
    Option (Resumable × RState × Outcome)
  /-- `ResumableWhile._execute_body`: cursor to `1`, then
  `try_run_resumable(self.body, ..., next_parent_index=0,
  on_resumable_done=self.reset)`; when the body finishes an iteration the
  dispatcher invokes `self.reset`, resetting the while's cursor and its
  body (cursor and private scope) before the loop re-enters the condition. -/
  whileBodyStep : Expression → Resumable → EnvId → RState →
    Option (Resumable × RState × Outcome)
  /-- `ResumableIf._execute_condition`: evaluate the condition only when no
  value is cached (`self._condition_value is None`, i.e. `Value.null`),
  cache it, and dispatch. -/
  ifCondStep : Expression → Value → Resumable → Option Resumable → EnvId →
    RState → Option (Resumable × RState × Outcome)
  /-- The dispatch part of `ResumableIf._execute_condition`, once
  `self._condition_value` holds the decided value: exactly one branch (or
  straight to done when the value is falsy and there is no else branch). -/
  ifDispatch : Expression → Value → Resumable → Option Resumable → EnvId →
    RState → Option (Resumable × RState × Outcome)
  /-- `ResumableIf._execute_if_branch`: cursor to `1`,
  `try_run_resumable(self.then, ..., next_parent_index=3)`, then
  `self._mark_as_done_and_raise()` if the dispatcher returned normally. -/
  ifThenStep : Expression → Value → Resumable → Option Resumable → EnvId →
    RState → Option (Resumable × RState × Outcome)
  /-- `ResumableIf._execute_else_branch`: cursor to `2`, dispatch the else
  branch (asserted present), then mark done. -/
  ifElseStep : Expression → Value → Resumable → Option Resumable → EnvId →
    RState → Option (Resumable × RState × Outcome)

/-- Fuel level `0`: every procedure is out of fuel. -/
def engineBot : EngineFns where
  resume := fun _ _ _ => none
  blockSteps := fun _ _ _ _ => none
  whileLoop := fun _ _ _ _ _ => none
  whileBodyStep := fun _ _ _ _ => none
  ifCondStep := fun _ _ _ _ _ _ => none
  ifDispatch := fun _ _ _ _ _ _ => none
  ifThenStep := fun _ _ _ _ _ _ => none
  ifElseStep := fun _ _ _ _ _ _ => none

/-- One step of every resume procedure, delegating each nested call (child
resumes, loop iterations, and the `_execute_*` method hops) to the previous
fuel level `prev`. -/
def engineStep (prev : EngineFns) : EngineFns where
  resume := fun node env st =>
    match node with
    | .yieldStmt expr =>
      -- ResumableYield.resume: evaluate, then `raise YieldValue(value, sender=self)`
      match evalExpr st.heap env expr with
      | .ok v => some (node, st, .yielded v true)
      | .error e => some (node, st, .error e)
    | .printStmt expr =>
      match evalExpr st.heap env expr with
      | .ok v => some (node, { st with trace := st.trace ++ [.printed v] }, .normal)
      | .error e => some (node, st, .error e)
    | .exprStmt expr =>
      match evalExpr st.heap env expr with
      | .ok _ => some (node, st, .normal)
      | .error e => some (node, st, .error e)
    | .assign varName expr =>
      -- ResumableAssignment.resume: `env[name] = eval_expr(...)`
      match evalExpr st.heap env expr with
      | .ok v =>
        match envWrite (st.heap.length + 1) st.heap env varName v with
        | some h2 => some (node, { st with heap := h2 }, .normal)
        | none => some (node, st, .error (.undefinedVariable varName))
      | .error e => some (node, st, .error e)
    | .defineStmt varName initializer =>
      -- ResumableDefine.resume: `env.define(name, eval_expr(...))`
      match evalExpr st.heap env initializer with
      | .ok v =>
        some (node, { st with heap := envDefine st.heap env varName v }, .normal)
      | .error e => some (node, st, .error e)
    | .returnStmt expr =>
      -- ResumableReturn.resume: `raise ReturnValue(value, has_value=...)`
      match expr with
      | none => some (node, st, .returned .null false)
      | some e =>
        match evalExpr st.heap env e with
        | .ok v => some (node, st, .returned v true)
        | .error er => some (node, st, .error er)
    | .block index statements own benv =>
      -- ResumableBlock.resume
      match index with
      | none => some (node, st, .error .invalidOperation) -- _raise_if_done
      | some i =>
        -- _maybe_chain_environment: re-chain the private scope (if any)
        -- under the caller's environment and execute inside it
        let env2 := match benv with | some e => e | none => env
        let st2 := match benv with
          | some e => { st with heap := envSetParent st.heap e (some env) }
          | none => st
        match prev.blockSteps statements i env2 st2 with
        | none => none
        | some (statements2, index2, st3, signal) =>
          match signal with
          | none =>
            -- all statements completed: _mark_as_done_and_raise
            some (.block none statements2 own benv, st3, .finished)
          | some out => some (.block index2 statements2 own benv, st3, out)
    | .whileStmt index condition body =>
      prev.whileLoop index condition body env st
    | .ifStmt index condition conditionValue thenBranch elseBranch =>
      -- ResumableIf.resume: dispatch through `_instructions[self.index]`
      match index with
      | some 0 => prev.ifCondStep condition conditionValue thenBranch elseBranch env st
      | some 1 => prev.ifThenStep condition conditionValue thenBranch elseBranch env st
      | some 2 => prev.ifElseStep condition conditionValue thenBranch elseBranch env st
      | some 3 =>
        some (.ifStmt none condition conditionValue thenBranch elseBranch,
          st, .finished) -- instruction 3: _mark_as_done_and_raise
      | _ =>
        -- `self._instructions` has no such key (in particular no `None` key)
        some (node, st, .error .dispatchKeyError)
  blockSteps := fun statements index env st =>
    match statements[index]? with
    | none => some (statements, some index, st, none) -- index ≥ length: loop exits
    | some statement =>
      match tryRunCore (prev.resume statement env st)
          (some index) (some (index + 1)) false with
      | none => none
      | some r =>
        let statements2 := statements.set index r.child
        match r.signal with
        | .normal =>
          match r.parentIndex with
          | some index2 => prev.blockSteps statements2 index2 env r.state
          | none => -- unreachable: next_parent_index is always supplied here
            some (statements2, none, r.state, some (.error .assertionFailure))
        | signal => some (statements2, r.parentIndex, r.state, some signal)
  whileLoop := fun index condition body env st =>
    match index with
    | none =>
      -- instruction for cursor `None`: `self._mark_as_done_and_raise()`
      -- (raises ResumableDone, i.e. signals completion, not an error)
      some (.whileStmt none condition body, st, .finished)
    | some 0 =>
      -- _execute_condition: log, evaluate (never cached), then run the
      -- body or finish
      let st2 := { st with trace := st.trace ++ [.whileCondition] }
      match evalExpr st2.heap env condition with
      | .error e => some (.whileStmt (some 0) condition body, st2, .error e)
      | .ok v =>
        if truthy v then prev.whileBodyStep condition body env st2
        else some (.whileStmt none condition body, st2, .finished)
    | some 1 => prev.whileBodyStep condition body env st
    | some _ =>
      -- `self._instructions` has no such key
      some (.whileStmt index condition body, st, .error .dispatchKeyError)
  whileBodyStep := fun condition body env st =>
    match tryRunCore (prev.resume body env st) (some 1) (some 0) true with
    | none => none
    | some r =>
      match r.signal with
      | .normal =>
        if r.invokedOnDone then
          -- on_resumable_done = self.reset: cursor 0, children reset
          let (body2, h2) := resetResumable r.child r.state.heap
          prev.whileLoop (some 0) condition body2 env { r.state with heap := h2 }
        else
          prev.whileLoop r.parentIndex condition r.child env r.state
      | signal =>
        some (.whileStmt r.parentIndex condition r.child, r.state, signal)
  ifCondStep := fun condition conditionValue thenBranch elseBranch env st =>
    if conditionValue = Value.null then
      let st2 := { st with trace := st.trace ++ [.ifCondition] }
      match evalExpr st2.heap env condition with
      | .error e =>
        some (.ifStmt (some 0) condition conditionValue thenBranch elseBranch,
          st2, .error e)
      | .ok v => prev.ifDispatch condition v thenBranch elseBranch env st2
    else
      prev.ifDispatch condition conditionValue thenBranch elseBranch env st
  ifDispatch := fun condition conditionValue thenBranch elseBranch env st =>
    if truthy conditionValue then
      prev.ifThenStep condition conditionValue thenBranch elseBranch env st
    else
      match elseBranch with
      | some _ => prev.ifElseStep condition conditionValue thenBranch elseBranch env st
      | none =>
        -- fall through to the trailing `self._mark_as_done_and_raise()`
        some (.ifStmt none condition conditionValue thenBranch elseBranch,
          st, .finished)
  ifThenStep := fun condition conditionValue thenBranch elseBranch env st =>
    match tryRunCore (prev.resume thenBranch env st) (some 1) (some 3) false with
    | none => none
    | some r =>
      match r.signal with
      | .normal =>
        some (.ifStmt none condition conditionValue r.child elseBranch,
          r.state, .finished)
      | signal =>
        some (.ifStmt r.parentIndex condition conditionValue r.child elseBranch,
          r.state, signal)
  ifElseStep := fun condition conditionValue thenBranch elseBranch env st =>
    match elseBranch with
    | none =>
      -- `assert self.else_ is not None` fails
      some (.ifStmt (some 2) condition conditionValue thenBranch elseBranch,
        st, .error .assertionFailure)
    | some eb =>
      match tryRunCore (prev.resume eb env st) (some 2) (some 3) false with
      | none => none
      | some r =>
        match r.signal with
        | .normal =>
          some (.ifStmt none condition conditionValue thenBranch (some r.child),
            r.state, .finished)
        | signal =>
          some (.ifStmt r.parentIndex condition conditionValue thenBranch
            (some r.child), r.state, signal)

/-- The resume procedures with `fuel` levels of nesting available. -/
def engine : Nat → EngineFns
  | 0 => engineBot
  | fuel + 1 => engineStep (engine fuel)

/-- One call to `node.resume(env, context)` with the given fuel. -/
def Resumable.resume (fuel : Nat) (node : Resumable) (env : EnvId)
    (st : RState) : Option (Resumable × RState × Outcome) :=
  (engine fuel).resume node env st

/-- `try_run_resumable(resumable, env, context, parent, next_parent_index,
on_resumable_done)`: resume the child, then apply the cursor-advancement
protocol (`tryRunCore`). -/
def tryRunResumable (fuel : Nat) (child : Resumable) (env : EnvId)
    (st : RState) (parentIndex nextParentIndex : Option Nat)
    (hasOnDone : Bool) : Option TryRunResult :=
  tryRunCore (Resumable.resume fuel child env st) parentIndex nextParentIndex
    hasOnDone

/-! ## Generator lifecycle (`resumable.py`, class `Generator`) -/

/-- A generator: the declared parameter names (the `Var.name`s of
`self._params`), the root body (a `ResumableBlock` when built by the
compiler), the generator-level cursor (`Resumable.__init__` starts it at
`0`; `resume` sets it to `None` on exhaustion) and the bound argument
environment (`self._env`, `none` for an uninstantiated template). -/
structure Generator where
  name : String
  params : List String
  body : Resumable
  index : Option Nat
  envId : Option EnvId
  deriving Repr

/-- Whether some parameter name occurs twice: the `duplicates` set built by
`Generator._raise_if_duplicate_params` is nonempty exactly when a name
reappears later in the list. -/
def hasDuplicateParams : List String → Bool
  | [] => false
  | p :: rest => rest.contains p || hasDuplicateParams rest

/-- `Generator.__init__`: rejects duplicate parameter names at construction
(compile) time with `ValueError`; the fresh generator is a template
(`_env = None`) with cursor `0`. -/
def Generator.make (name : String) (params : List String) (body : Resumable) :
    Except RError Generator :=
  if hasDuplicateParams params then
    .error (.duplicateParameters params)
  else
    .ok ⟨name, params, body, some 0, none⟩

/-- `Generator._validate_call_args`: the argument mapping must exist and its
keys must match the declared parameter names exactly — any missing parameter
or unexpected extra argument raises `ValueError`.  (The source computes the
two differences as Python sets and sorts them for the message; the order of
the reported names is not modelled.) -/
def validateCallArgs (params : List String)
    (args : Option (List (String × Value))) :
    Except RError (List (String × Value)) :=
  match args with
  | none => .error .argsNotMapping
  | some args =>
    let argNames := args.map Prod.fst
    let missing := params.filter (fun p => !argNames.contains p)
    if missing.isEmpty then
      let extra := argNames.filter (fun a => !params.contains a)
      if extra.isEmpty then .ok args
      else .error (.unexpectedArguments extra)
    else .error (.missingArguments missing)

/-- `Generator.clone`: `Generator(params=self._params, body=self._body.clone(),
name=...)` — running `__init__` again, which re-checks the (unchanged)
parameter list and leaves the clone uninstantiated. -/
def Generator.clone (g : Generator) (h : Heap) :
    Except RError (Generator × Heap) :=
  let (body', h') := cloneResumable g.body h
  (Generator.make g.name g.params body').map (fun g' => (g', h'))

/-- `Generator.new(args)`: validate the arguments, deep-clone the
cursor-bearing tree, and bind a fresh `Env` seeded with the arguments.  No
statement of the body runs. -/
def Generator.new (g : Generator) (args : Option (List (String × Value)))
    (h : Heap) : Except RError (Generator × Heap) := do
  let args ← validateCallArgs g.params args
  let (g', h') ← g.clone h
  let (h'', e) := envAlloc h' args
  .ok ({ g' with envId := some e }, h'')

/-- What a call to `Generator.resume` produces for its caller. -/
inductive GenResult where
  /-- `resume` returned a yielded value (the instance is still alive). -/
  | value (v : Value)
  /-- `raise StopIteration(...)`: the exhaustion signal; `v = .null` when it
  carries no terminal value (`StopIteration()`), since Python stores `None`
  in `stop.value` then. -/
  | stopIteration (v : Value)
  /-- A runtime error was raised. -/
  | error (e : RError)
  deriving DecidableEq, Repr

/-- `Generator.resume(env, context)` (also aliased as `next`): fail on a
template, re-raise `StopIteration()` when already exhausted, otherwise
re-chain the instance environment under the caller's environment, run the
root body, and translate the control signals: a yield is a produced value,
`ReturnValue`/`ResumableDone` permanently exhaust the instance
(`self.index = None`) and raise `StopIteration` carrying the returned value
(if any); if the body's `resume` were to return without raising, the
trailing `RuntimeError("Unreachable state: ...")` fires. -/
def Generator.resume (fuel : Nat) (g : Generator) (callerEnv : EnvId)
    (st : RState) : Option (Generator × RState × GenResult) :=
  match g.envId with
  | none => some (g, st, .error .templateNotInstantiated)
  | some e =>
    match g.index with
    | none => some (g, st, .stopIteration .null)
    | some _ =>
      let st' := { st with heap := envSetParent st.heap e (some callerEnv) }
      match Resumable.resume fuel g.body e st' with
      | none => none
      | some (body', st'', out) =>
        match out with
        | .yielded v _ => some ({ g with body := body' }, st'', .value v)
        | .returned v _ =>
          some ({ g with body := body', index := none }, st'', .stopIteration v)
        | .finished =>
          some ({ g with body := body', index := none }, st'', .stopIteration .null)
        | .error er => some ({ g with body := body' }, st'', .error er)
        | .normal => some ({ g with body := body' }, st'', .error .unreachableState)

/-- Result of `collect_values`: the collected list, or the error that
escaped (only `StopIteration` is caught in the source). -/
inductive CollectResult where
  | ok (values : List Value)
  | error (e : RError)
  deriving DecidableEq, Repr

/-- The `while True: values.append(generator.next(...))` loop of
`collect_values`, with the accumulated values. -/
def collectLoop : Nat → Generator → EnvId → RState → List Value →
    Option CollectResult
  | 0, _, _, _, _ => none
  | fuel + 1, g, env, st, acc =>
    match g.resume fuel env st with
    | none => none
    | some (g', st', .value v) => collectLoop fuel g' env st' (acc ++ [v])
    | some (_, _, .stopIteration v) =>
      -- `except StopIteration as stop: if stop.value is not None: append`
      some (.ok (if v = Value.null then acc else acc ++ [v]))
    | some (_, _, .error e) => some (.error e)

/-- `collect_values(generator, env, context)`: drive the instance to
exhaustion, returning every produced value in order, with the terminal
return value appended exactly when `stop.value is not None`. -/
def collectValues (fuel : Nat) (g : Generator) (env : EnvId) (st : RState) :
    Option CollectResult :=
  collectLoop fuel g env st []

/-! ## Drivers for concrete executions

Spec-side apparatus (not a source function): resume a node or a pair of
generator instances repeatedly and record what each call produced. -/

/-- Resume a node `k` times in a row with the same caller environment,
collecting the outcome of every call. -/
def resumeSeq (fuel : Nat) : Nat → Resumable → EnvId → RState →
    Option (List Outcome × Resumable × RState)
  | 0, n, _, st => some ([], n, st)
  | k + 1, n, env, st =>
    match Resumable.resume fuel n env st with
    | none => none
    | some (n', st', o) =>
      (resumeSeq fuel k n' env st').map
        (fun r : List Outcome × Resumable × RState => (o :: r.1, r.2.1, r.2.2))

/-- Interleave `resume` calls on two generator instances sharing one state:
`true` picks the first instance, `false` the second.  Returns what each call
produced, in schedule order. -/
def runSchedule (fuel : Nat) : List Bool → Generator → Generator → EnvId →
    RState → Option (List GenResult)
  | [], _, _, _, _ => some []
  | pick :: rest, a, b, env, st =>
    if pick then
      match a.resume fuel env st with
      | none => none
      | some (a', st', r) =>
        (runSchedule fuel rest a' b env st').map (fun rs => r :: rs)
    else
      match b.resume fuel env st with
      | none => none
      | some (b', st', r) =>
        (runSchedule fuel rest a b' env st').map (fun rs => r :: rs)

/-! ## Concrete programs from the spec's scenarios

Generator templates are written as the generator compiler
(`generator_compiler.py`) produces them: the function body is a
`ResumableBlock` with `own_environment=False`, nested `{...}` blocks own an
environment, a `while` body is a block owning an environment.  A template's
block `envId`s are irrelevant (only instances produced by `new`, which
re-clones and re-allocates every private scope, are ever resumed), so
templates carry `none` there. -/

/-- A heap holding a single (empty) global scope at address `0`. -/
def globalHeap : Heap := [⟨none, []⟩]

/-- `gen range(start, end) { var i = start; while i < end { yield i; i = i + 1; } }` -/
def rangeBody : Resumable :=
  .block (some 0)
    [ .defineStmt "i" (.var "start"),
      .whileStmt (some 0) (.binary (.var "i") (.var "end") .lt)
        (.block (some 0)
          [ .yieldStmt (.var "i"),
            .assign "i" (.binary (.var "i") (.literal (.int 1)) .add) ]
          true none) ]
    false none

/-- The compiled `range` generator template. -/
def rangeGen : Generator := ⟨"range", ["start", "end"], rangeBody, some 0, none⟩

/-- Instantiate `range(0,3)` as A and `range(10,12)` as B on one shared heap
(one global scope) and run a schedule of interleaved resumes. -/
def rangeRun (schedule : List Bool) : Option (List GenResult) :=
  match rangeGen.new (some [("start", .int 0), ("end", .int 3)]) globalHeap with
  | .error _ => none
  | .ok (a, h1) =>
    match rangeGen.new (some [("start", .int 10), ("end", .int 12)]) h1 with
    | .error _ => none
    | .ok (b, h2) => runSchedule 100 schedule a b 0 ⟨h2, []⟩

/-- `gen g() { x = x + 1; yield x; }` — a body that assigns through to the
*caller's* environment (no local `x` is declared). -/
def sharedBody : Resumable :=
  .block (some 0)
    [ .assign "x" (.binary (.var "x") (.literal (.int 1)) .add),
      .yieldStmt (.var "x") ]
    false none

/-- The compiled template of `sharedBody`. -/
def sharedGen : Generator := ⟨"g", [], sharedBody, some 0, none⟩

/-- Two instances of `sharedGen` over one shared global scope holding
`x = 0`, resumed per the schedule. -/
def sharedRun (schedule : List Bool) : Option (List GenResult) :=
  match sharedGen.new (some []) [⟨none, [("x", .int 0)]⟩] with
  | .error _ => none
  | .ok (a, h1) =>
    match sharedGen.new (some []) h1 with
    | .error _ => none
    | .ok (b, h2) => runSchedule 50 schedule a b 0 ⟨h2, []⟩

/-- `collect` on a fresh instance of a parameterless generator template,
driven from the global scope. -/
def collectOf (g : Generator) : Option CollectResult :=
  match g.new (some []) globalHeap with
  | .error _ => none
  | .ok (inst, h) => collectValues 100 inst 0 ⟨h, []⟩

/-- `gen g() { yield 1; yield 2; return 3; }` -/
def yieldsThenReturns : Generator :=
  ⟨"g", [],
    .block (some 0)
      [ .yieldStmt (.literal (.int 1)), .yieldStmt (.literal (.int 2)),
        .returnStmt (some (.literal (.int 3))) ]
      false none,
    some 0, none⟩

/-- `gen g() { yield 1; }` (falls through, no return value) -/
def yieldsOne : Generator :=
  ⟨"g", [], .block (some 0) [.yieldStmt (.literal (.int 1))] false none,
    some 0, none⟩

/-- `gen g() { yield 1; return null; }` (a *present* but null return value) -/
def yieldsThenReturnsNull : Generator :=
  ⟨"g", [],
    .block (some 0)
      [ .yieldStmt (.literal (.int 1)), .returnStmt (some (.literal .null)) ]
      false none,
    some 0, none⟩

/-- An already-exhausted instance (cursor at the `done` sentinel, bound
environment at address `1`), as `Generator.resume` leaves one behind. -/
def exhaustedInstance : Generator :=
  ⟨"one", [], .block none [.yieldStmt (.literal (.int 0))] false none,
    none, some 1⟩

/-- A heap for `exhaustedInstance`: global scope `0`, argument scope `1`. -/
def exhaustedHeap : Heap := [⟨none, []⟩, ⟨some 0, []⟩]

/-- `if c { yield 1; yield 2; } else { yield 3; }` (condition read from the
caller scope), run as one full activation: three consecutive resumes. -/
def ifScenario : Option (List Outcome × List TraceEvent) :=
  let node : Resumable :=
    .ifStmt (some 0) (.var "c") .null
      (.block (some 0)
        [.yieldStmt (.literal (.int 1)), .yieldStmt (.literal (.int 2))]
        true none)
      (some (.block (some 0) [.yieldStmt (.literal (.int 3))] true none))
  let (inst, h) := cloneResumable node [⟨none, [("c", .bool true)]⟩]
  (resumeSeq 50 3 inst 0 ⟨h, []⟩).map
    (fun r : List Outcome × Resumable × RState => (r.1, r.2.2.trace))

/-- `while i < 2 { if i == 0 { var x = 5; } yield x; i = i + 1; }` over a
caller scope with `x = 99, i = 0`: the body defines a body-local `x` only in
the first iteration, so the second iteration's `yield x` observes the outer
`x` exactly when the body's private scope was reset between iterations. -/
def whileScenario : Option (List Outcome × List TraceEvent) :=
  let node : Resumable :=
    .whileStmt (some 0) (.binary (.var "i") (.literal (.int 2)) .lt)
      (.block (some 0)
        [ .ifStmt (some 0) (.binary (.var "i") (.literal (.int 0)) .eq) .null
            (.defineStmt "x" (.literal (.int 5))) none,
          .yieldStmt (.var "x"),
          .assign "i" (.binary (.var "i") (.literal (.int 1)) .add) ]
        true none)
  let (inst, h) := cloneResumable node [⟨none, [("x", .int 99), ("i", .int 0)]⟩]
  (resumeSeq 80 3 inst 0 ⟨h, []⟩).map
    (fun r : List Outcome × Resumable × RState => (r.1, r.2.2.trace))

/-- Shadowing scenarios: `{ var x = 1; <inner>; }` run against an empty
global scope (the outer block, like a function body, does not own a scope,
so `x` lands in the caller scope).  Returns the outcome together with what
`x` reads as in the caller scope after the run. -/
def shadowScenario (inner : Resumable) : Option (Outcome × Option Value) :=
  let node : Resumable :=
    .block (some 0) [.defineStmt "x" (.literal (.int 1)), inner] false none
  let (inst, h) := cloneResumable node [⟨none, []⟩]
  (Resumable.resume 50 inst 0 ⟨h, []⟩).map
    (fun r : Resumable × RState × Outcome =>
      (r.2.2, envRead (r.2.1.heap.length + 1) r.2.1.heap 0 "x"))

/-- `{ var x = 2; }` — a nested block re-declaring `x`. -/
def innerRedeclare : Resumable :=
  .block (some 0) [.defineStmt "x" (.literal (.int 2))] true none

/-- `{ x = 2; }` — a nested block assigning to `x` without declaring it. -/
def innerAssign : Resumable :=
  .block (some 0) [.assign "x" (.literal (.int 2))] true none

/-- First scope in the parent chain of `i` (inclusive) that contains `key`
— the specification vocabulary for where an indexed write must land. -/
def chainFirst (fuel : Nat) (h : Heap) (i : EnvId) (key : String) :
    Option EnvId :=
  match fuel with
  | 0 => none
  | fuel + 1 =>
    match h[i]? with
    | none => none
    | some s =>
      if (s.keyValues.lookup key).isSome then some i
      else
        match s.parentEnv with
        | some p => chainFirst fuel h p key
        | none => none

/-- The argument names exactly cover the parameter names (as sets). -/
def argsMatch (params names : List String) : Bool :=
  params.all (fun p => names.contains p) && names.all (fun a => params.contains a)

/-- Observation of an `If` node's resume result that hides the stored
condition expression and cached condition value: the cursor, the two branch
subtrees, the state, and the outcome.  Used to state that a re-entered `If`
cannot depend on its condition. -/
def ifObs (r : Option (Resumable × RState × Outcome)) :
    Option (Option Nat × Resumable × Option Resumable × RState × Outcome) :=
  r.map (fun t =>
    match t.1 with
    | .ifStmt i _ _ thenBranch elseBranch => (i, thenBranch, elseBranch, t.2.1, t.2.2)
    | n => (none, n, none, t.2.1, t.2.2))

/-- The cached `_condition_value` of an `If` node. -/
def conditionValueOf : Resumable → Option Value
  | .ifStmt _ _ cv _ _ => some cv
  | _ => none

/-! # Theorems settling the claims -/

/-- C1: Cursor-advancement protocol of the generic dispatcher
`try_run_resumable`: (1) if the child's resume raises `Yielded` with the
child itself as source, the parent's cursor is set to `next_cursor` and the
signal re-raises; (2) if the `Yielded` signal comes from a deeper
descendant, the parent's cursor is left unchanged and the signal still
re-raises; (3) on `SubtreeFinished`, the parent's cursor is set to
`next_cursor` and the optional `on_finished` callback runs. -/
theorem claim1_dispatcher_cursor_protocol :
    (∀ (fuel : Nat) (child c' : Resumable) (env : EnvId) (st st' : RState)
       (pIdx : Option Nat) (n : Nat) (hasOnDone : Bool) (v : Value),
       Resumable.resume fuel child env st = some (c', st', .yielded v true) →
       tryRunResumable fuel child env st pIdx (some n) hasOnDone =
         some ⟨c', st', some n, false, .yielded v false⟩) ∧
    (∀ (fuel : Nat) (child c' : Resumable) (env : EnvId) (st st' : RState)
       (pIdx : Option Nat) (n : Nat) (hasOnDone : Bool) (v : Value),
       Resumable.resume fuel child env st = some (c', st', .yielded v false) →
       tryRunResumable fuel child env st pIdx (some n) hasOnDone =
         some ⟨c', st', pIdx, false, .yielded v false⟩) ∧
    (∀ (fuel : Nat) (child c' : Resumable) (env : EnvId) (st st' : RState)
       (pIdx : Option Nat) (n : Nat),
       Resumable.resume fuel child env st = some (c', st', .finished) →
       tryRunResumable fuel child env st pIdx (some n) true =
         some ⟨c', { st' with trace := st'.trace ++ [.onResumableDone] },
           some n, true, .normal⟩) := by
  refine ⟨?_, ?_, ?_⟩
  · intro fuel child c' env st st' pIdx n hOD v h
    simp [tryRunResumable, tryRunCore, updateParentIndex, h]
  · intro fuel child c' env st st' pIdx n hOD v h
    simp [tryRunResumable, tryRunCore, updateParentIndex, h]
  · intro fuel child c' env st st' pIdx n h
    simp [tryRunResumable, tryRunCore, updateParentIndex, h]

/-- Witness for C1: the three dispatcher cases at concrete inputs — a bare
`yield` leaf (direct signal), a block containing a `yield` (signal from
deeper), and an empty block (subtree finished). -/
theorem claim1_dispatcher_cursor_protocol_witness :
    tryRunResumable 1 (.yieldStmt (.literal (.int 7))) 0 ⟨globalHeap, []⟩
        (some 4) (some 9) false =
      some ⟨.yieldStmt (.literal (.int 7)), ⟨globalHeap, []⟩, some 9, false,
        .yielded (.int 7) false⟩ ∧
    tryRunResumable 3 (.block (some 0) [.yieldStmt (.literal (.int 7))] false none)
        0 ⟨globalHeap, []⟩ (some 4) (some 9) false =
      some ⟨.block (some 1) [.yieldStmt (.literal (.int 7))] false none,
        ⟨globalHeap, []⟩, some 4, false, .yielded (.int 7) false⟩ ∧
    tryRunResumable 2 (.block (some 0) [] false none) 0 ⟨globalHeap, []⟩
        (some 4) (some 9) true =
      some ⟨.block none [] false none, ⟨globalHeap, [.onResumableDone]⟩,
        some 9, true, .normal⟩ :=
  ⟨claim1_dispatcher_cursor_protocol.1 1 (.yieldStmt (.literal (.int 7)))
      (.yieldStmt (.literal (.int 7))) 0 ⟨globalHeap, []⟩ ⟨globalHeap, []⟩
      (some 4) 9 false (.int 7) (by rfl),
   claim1_dispatcher_cursor_protocol.2.1 3
      (.block (some 0) [.yieldStmt (.literal (.int 7))] false none)
      (.block (some 1) [.yieldStmt (.literal (.int 7))] false none) 0
      ⟨globalHeap, []⟩ ⟨globalHeap, []⟩ (some 4) 9 false (.int 7) (by rfl),
   claim1_dispatcher_cursor_protocol.2.2 2 (.block (some 0) [] false none)
      (.block none [] false none) 0 ⟨globalHeap, []⟩ ⟨globalHeap, []⟩
      (some 4) 9 (by rfl)⟩

/-- C2 (counterexample): resuming an exhausted generator instance does
*not* fail with the invalid-state error (`InvalidOperation`, the repo's
`InvalidState`): it raises the exhaustion signal `StopIteration()` again
(as its own test `test_resume_after_done_raises_stop_iteration` pins). -/
theorem claim2_exhausted_resume_counterexample :
    (Generator.resume 10 exhaustedInstance 0 ⟨exhaustedHeap, []⟩).map
        (fun r => r.2.2) = some (.stopIteration .null) ∧
    GenResult.stopIteration .null ≠ .error .invalidOperation := by
  exact ⟨by rfl, by decide⟩

/-- C2 (amended): for every exhausted generator instance, every subsequent
`resume` raises the exhaustion signal `StopIteration` with no value; the
instance, the heap and the trace are returned unchanged — the body never
restarts, no statement re-runs, and no value is returned. -/
theorem claim2_exhausted_resume_behaviour
    (fuel : Nat) (g : Generator) (e : EnvId) (callerEnv : EnvId) (st : RState)
    (hInst : g.envId = some e) (hDone : g.index = none) :
    Generator.resume fuel g callerEnv st = some (g, st, .stopIteration .null) := by
  simp [Generator.resume, hInst, hDone]

/-- Witness for C2's amended theorem at the concrete exhausted instance. -/
theorem claim2_exhausted_resume_behaviour_witness :
    Generator.resume 10 exhaustedInstance 0 ⟨exhaustedHeap, []⟩ =
      some (exhaustedInstance, ⟨exhaustedHeap, []⟩, .stopIteration .null) :=
  claim2_exhausted_resume_behaviour 10 exhaustedInstance 1 0 _ rfl rfl

/-- C9 (counterexample): a `While` node whose cursor is the terminal `done`
sentinel, resumed again without a reset, does *not* fail: its
`_instructions[None]` entry runs `_mark_as_done_and_raise`, which raises
`ResumableDone` — the normal subtree-completion signal, not an error. -/
theorem claim9_done_while_counterexample :
    (Resumable.resume 5
        (.whileStmt none (.literal (.bool true)) (.block (some 0) [] false none))
        0 ⟨globalHeap, []⟩).map (fun r => r.2.2) = some .finished ∧
    Outcome.finished ≠ .error .invalidOperation ∧
    ∀ e : RError, Outcome.finished ≠ .error e := by
  refine ⟨by rfl, by decide, ?_⟩
  intro e h
  cases h

/-- C9 (amended): once a node's cursor is the `done` sentinel, resuming it
again without a reset never silently no-ops, and for `Block` and `If` it
fails with an error — `InvalidOperation` from `_raise_if_done` for a block,
a `KeyError` from the `_instructions` dispatch dict for an `If` — but a
`While` instead raises the `SubtreeFinished` signal again, behaving as a
repeated normal completion rather than failing. -/
theorem claim9_done_node_behaviour :
    (∀ (fuel : Nat) (statements : List Resumable) (own : Bool)
       (e : Option EnvId) (env : EnvId) (st : RState),
       Resumable.resume (fuel + 1) (.block none statements own e) env st =
         some (.block none statements own e, st, .error .invalidOperation)) ∧
    (∀ (fuel : Nat) (c : Expression) (cv : Value) (t : Resumable)
       (el : Option Resumable) (env : EnvId) (st : RState),
       Resumable.resume (fuel + 1) (.ifStmt none c cv t el) env st =
         some (.ifStmt none c cv t el, st, .error .dispatchKeyError)) ∧
    (∀ (fuel : Nat) (c : Expression) (b : Resumable) (env : EnvId) (st : RState),
       Resumable.resume (fuel + 2) (.whileStmt none c b) env st =
         some (.whileStmt none c b, st, .finished)) := by
  refine ⟨?_, ?_, ?_⟩
  · intro fuel statements own e env st
    simp [Resumable.resume, engine, engineStep]
  · intro fuel c cv t el env st
    simp [Resumable.resume, engine, engineStep]
  · intro fuel c b env st
    simp [Resumable.resume, engine, engineStep]

/-- C3 (counterexample): instance independence fails for a generator whose
body assigns through to the *shared caller environment*: for
`gen g() { x = x + 1; yield x; }` over a shared global `x = 0`, instance B
yields `2` when a resume of instance A is interleaved first, but `1` when
resumed alone — A's resumes changed the value B produces. -/
theorem claim3_interleaving_counterexample :
    sharedRun [true, false] = some [.value (.int 1), .value (.int 2)] ∧
    sharedRun [false] = some [.value (.int 1)] ∧
    Value.int 2 ≠ Value.int 1 := by decide

/-- C3 (amended): instances created by `new()` from the same compiled
generator share no cursor or scope state of their own (each gets a
deep-cloned tree and a fresh argument scope); interleaving can change
another instance's values only through bindings of the shared caller
environment that the body itself assigns.  For a body that writes no
caller-environment binding, such as `range`, interleaving preserves each
instance's sequence: A = range(0,3), B = range(10,12) resumed in the order
A,B,A,B,A yield 0,10,1,11,2, and B produces 10,11 exactly as it does when
resumed without A. -/
theorem claim3_range_interleaving :
    rangeRun [true, false, true, false, true] =
      some [.value (.int 0), .value (.int 10), .value (.int 1),
        .value (.int 11), .value (.int 2)] ∧
    rangeRun [false, false] = some [.value (.int 10), .value (.int 11)] ∧
    rangeRun [true, true, true] =
      some [.value (.int 0), .value (.int 1), .value (.int 2)] := by decide

/-- C6: `collect` drives an instance to exhaustion and returns the yielded
values in order, appending the terminal return value iff it is present and
non-null: yields 1,2 then `return 3` collects `[1,2,3]`; yields 1 with no
return collects `[1]`; yields 1 then `return null` also collects `[1]`
(present but null is not appended, since `StopIteration.value is None`). -/
theorem claim6_collect_values :
    collectOf yieldsThenReturns = some (.ok [.int 1, .int 2, .int 3]) ∧
    collectOf yieldsOne = some (.ok [.int 1]) ∧
    collectOf yieldsThenReturnsNull = some (.ok [.int 1]) := by decide

/-! ## Helper invariants for C10 -/

/-- The statement loop of a block never lets the `.normal` pseudo-signal
escape: it either keeps running (the dispatcher returned normally) or
propagates a genuine raised signal. -/
theorem engine_blockSteps_ne_normal (fuel : Nat) :
    ∀ (statements : List Resumable) (index : Nat) (env : EnvId) (st : RState)
      (stmts2 : List Resumable) (idx2 : Option Nat) (st2 : RState)
      (sig : Option Outcome),
      (engine fuel).blockSteps statements index env st =
        some (stmts2, idx2, st2, sig) →
      sig ≠ some Outcome.normal := by
  induction fuel with
  | zero =>
    intro statements index env st stmts2 idx2 st2 sig h
    simp [engine, engineBot] at h
  | succ fuel ih =>
    intro statements index env st stmts2 idx2 st2 sig h
    simp only [engine, engineStep] at h
    split at h
    · simp only [Option.some.injEq, Prod.mk.injEq] at h
      obtain ⟨-, -, -, hsig⟩ := h
      subst hsig
      simp
    · split at h
      · exact absurd h (by simp)
      · split at h
        · split at h
          · exact ih _ _ _ _ _ _ _ _ h
          · simp only [Option.some.injEq, Prod.mk.injEq] at h
            obtain ⟨-, -, -, hsig⟩ := h
            subst hsig
            simp
        · rename_i hne
          simp only [Option.some.injEq, Prod.mk.injEq] at h
          obtain ⟨-, -, -, hsig⟩ := h
          subst hsig
          exact fun hh => hne (Option.some.inj hh)

/-- `evalBinOp` raises only `TypeError` / `ZeroDivisionError`. -/
theorem evalBinOp_error_kind (op : BinaryOp) (a b : Value) (er : RError)
    (h : evalBinOp op a b = .error er) :
    er = .typeMismatch ∨ er = .zeroDivision := by
  cases op <;> simp only [evalBinOp] at h <;>
    (repeat' split at h) <;> simp_all

/-- `eval_expr` raises only `KeyError` (undefined variable), `TypeError`,
or `ZeroDivisionError`. -/
theorem evalExpr_error_kind (h : Heap) (env : EnvId) :
    ∀ (e : Expression) (er : RError), evalExpr h env e = .error er →
      (∃ name, er = .undefinedVariable name) ∨ er = .typeMismatch ∨
        er = .zeroDivision := by
  intro e
  induction e with
  | literal v => intro er h2; simp [evalExpr] at h2
  | var name =>
    intro er h2
    simp only [evalExpr] at h2
    split at h2
    · simp at h2
    · simp only [Except.error.injEq] at h2
      exact Or.inl ⟨name, h2.symm⟩
  | binary l r op ihl ihr =>
    intro er h2
    simp only [evalExpr, bind, Except.bind] at h2
    split at h2
    · rename_i hl
      simp only [Except.error.injEq] at h2
      subst h2
      exact ihl _ hl
    · split at h2
      · rename_i hr
        simp only [Except.error.injEq] at h2
        subst h2
        exact ihr _ hr
      · exact Or.inr (evalBinOp_error_kind _ _ _ _ h2)
  | neg e ihe =>
    intro er h2
    simp only [evalExpr, bind, Except.bind] at h2
    split at h2
    · rename_i he
      simp only [Except.error.injEq] at h2
      subst h2
      exact ihe _ he
    · split at h2
      · simp at h2
      · simp only [Except.error.injEq] at h2
        subst h2
        exact Or.inr (Or.inl rfl)

/-- An expression evaluation never raises the `Unreachable state`
`RuntimeError` (that error exists only in `Generator.resume`). -/
theorem evalExpr_ne_unreachable (h : Heap) (env : EnvId) (e : Expression)
    (er : RError) (he : evalExpr h env e = .error er) :
    er ≠ .unreachableState := by
  rcases evalExpr_error_kind h env e er he with ⟨name, rfl⟩ | rfl | rfl <;> simp

/-- The dispatcher preserves "never the unreachable-state error": if the
child's resume cannot produce it, neither can the propagated signal. -/
theorem tryRunCore_ne_unreachable
    (res : Option (Resumable × RState × Outcome))
    (parentIndex nextParentIndex : Option Nat) (hasOnDone : Bool)
    (r : TryRunResult)
    (h : tryRunCore res parentIndex nextParentIndex hasOnDone = some r)
    (hres : ∀ c s o, res = some (c, s, o) → o ≠ .error .unreachableState) :
    r.signal ≠ .error .unreachableState := by
  cases res with
  | none => simp [tryRunCore] at h
  | some t =>
    obtain ⟨c, s, o⟩ := t
    have ho := hres c s o rfl
    simp only [tryRunCore] at h
    cases o <;> (repeat' split at h) <;>
      (simp only [Option.some.injEq] at h; subst h) <;> simp_all

/-- No resume procedure ever produces the `Unreachable state` error: that
`RuntimeError` exists only in `Generator.resume` itself.  One statement per
engine procedure, proved by one induction on fuel. -/
theorem engine_ne_unreachable (fuel : Nat) :
    (∀ node env st n s o, (engine fuel).resume node env st = some (n, s, o) →
      o ≠ .error .unreachableState) ∧
    (∀ statements index env st a b c sig,
      (engine fuel).blockSteps statements index env st = some (a, b, c, sig) →
      sig ≠ some (Outcome.error .unreachableState)) ∧
    (∀ i cond body env st n s o,
      (engine fuel).whileLoop i cond body env st = some (n, s, o) →
      o ≠ .error .unreachableState) ∧
    (∀ cond body env st n s o,
      (engine fuel).whileBodyStep cond body env st = some (n, s, o) →
      o ≠ .error .unreachableState) ∧
    (∀ cond cv t el env st n s o,
      (engine fuel).ifCondStep cond cv t el env st = some (n, s, o) →
      o ≠ .error .unreachableState) ∧
    (∀ cond cv t el env st n s o,
      (engine fuel).ifDispatch cond cv t el env st = some (n, s, o) →
      o ≠ .error .unreachableState) ∧
    (∀ cond cv t el env st n s o,
      (engine fuel).ifThenStep cond cv t el env st = some (n, s, o) →
      o ≠ .error .unreachableState) ∧
    (∀ cond cv t el env st n s o,
      (engine fuel).ifElseStep cond cv t el env st = some (n, s, o) →
      o ≠ .error .unreachableState) := by
  induction fuel with
  | zero =>
    refine ⟨?_, ?_, ?_, ?_, ?_, ?_, ?_, ?_⟩ <;>
    · intros
      rename_i h
      simp [engine, engineBot] at h
  | succ fuel ih =>
    obtain ⟨ihR, ihB, ihW, ihWB, ihC, ihD, ihT, ihE⟩ := ih
    have hcore : ∀ (child : Resumable) (env : EnvId) (st : RState)
        (p q : Option Nat) (d : Bool) (r : TryRunResult),
        tryRunCore ((engine fuel).resume child env st) p q d = some r →
        r.signal ≠ .error .unreachableState := by
      intro child env st p q d r hr
      exact tryRunCore_ne_unreachable _ _ _ _ _ hr
        (fun c s2 o2 h2 => ihR child env st c s2 o2 h2)
    refine ⟨?_, ?_, ?_, ?_, ?_, ?_, ?_, ?_⟩
    · -- resume
      intro node env st n s o h
      cases node with
      | yieldStmt expr =>
        simp only [engine, engineStep] at h
        split at h <;>
          (simp only [Option.some.injEq, Prod.mk.injEq] at h
           obtain ⟨-, -, ho⟩ := h)
        · subst ho; simp
        · rename_i er he
          subst ho
          intro hc
          injection hc with hc
          exact evalExpr_ne_unreachable _ _ _ _ he hc
      | printStmt expr =>
        simp only [engine, engineStep] at h
        split at h <;>
          (simp only [Option.some.injEq, Prod.mk.injEq] at h
           obtain ⟨-, -, ho⟩ := h)
        · subst ho; simp
        · rename_i er he
          subst ho
          intro hc
          injection hc with hc
          exact evalExpr_ne_unreachable _ _ _ _ he hc
      | exprStmt expr =>
        simp only [engine, engineStep] at h
        split at h <;>
          (simp only [Option.some.injEq, Prod.mk.injEq] at h
           obtain ⟨-, -, ho⟩ := h)
        · subst ho; simp
        · rename_i er he
          subst ho
          intro hc
          injection hc with hc
          exact evalExpr_ne_unreachable _ _ _ _ he hc
      | assign varName expr =>
        simp only [engine, engineStep] at h
        split at h
        · split at h <;>
            (simp only [Option.some.injEq, Prod.mk.injEq] at h
             obtain ⟨-, -, ho⟩ := h) <;> subst ho <;> simp
        · rename_i er he
          simp only [Option.some.injEq, Prod.mk.injEq] at h
          obtain ⟨-, -, ho⟩ := h
          subst ho
          intro hc
          injection hc with hc
          exact evalExpr_ne_unreachable _ _ _ _ he hc
      | defineStmt varName initializer =>
        simp only [engine, engineStep] at h
        split at h <;>
          (simp only [Option.some.injEq, Prod.mk.injEq] at h
           obtain ⟨-, -, ho⟩ := h)
        · subst ho; simp
        · rename_i er he
          subst ho
          intro hc
          injection hc with hc
          exact evalExpr_ne_unreachable _ _ _ _ he hc
      | returnStmt expr =>
        cases expr with
        | none =>
          simp only [engine, engineStep] at h
          simp only [Option.some.injEq, Prod.mk.injEq] at h
          obtain ⟨-, -, ho⟩ := h
          subst ho; simp
        | some e =>
          simp only [engine, engineStep] at h
          split at h <;>
            (simp only [Option.some.injEq, Prod.mk.injEq] at h
             obtain ⟨-, -, ho⟩ := h)
          · subst ho; simp
          · rename_i er he
            subst ho
            intro hc
            injection hc with hc
            exact evalExpr_ne_unreachable _ _ _ _ he hc
      | block index statements own benv =>
        cases index with
        | none =>
          simp only [engine, engineStep] at h
          simp only [Option.some.injEq, Prod.mk.injEq] at h
          obtain ⟨-, -, ho⟩ := h
          subst ho; simp
        | some i =>
          simp only [engine, engineStep] at h
          split at h
          · exact absurd h (by simp)
          · rename_i res hbs
            split at h <;>
              (simp only [Option.some.injEq, Prod.mk.injEq] at h
               obtain ⟨-, -, ho⟩ := h) <;> subst ho
            · simp
            · intro hc
              subst hc
              exact (ihB _ _ _ _ _ _ _ _ hbs) rfl
      | whileStmt index condition body =>
        simp only [engine, engineStep] at h
        exact ihW _ _ _ _ _ _ _ _ h
      | ifStmt index condition conditionValue thenBranch elseBranch =>
        simp only [engine, engineStep] at h
        split at h
        · exact ihC _ _ _ _ _ _ _ _ _ h
        · exact ihT _ _ _ _ _ _ _ _ _ h
        · exact ihE _ _ _ _ _ _ _ _ _ h
        · simp only [Option.some.injEq, Prod.mk.injEq] at h
          obtain ⟨-, -, ho⟩ := h
          subst ho; simp
        · simp only [Option.some.injEq, Prod.mk.injEq] at h
          obtain ⟨-, -, ho⟩ := h
          subst ho; simp
    · -- blockSteps
      intro statements index env st a b c sig h
      simp only [engine, engineStep] at h
      split at h
      · simp only [Option.some.injEq, Prod.mk.injEq] at h
        obtain ⟨-, -, -, hsig⟩ := h
        subst hsig; simp
      · split at h
        · exact absurd h (by simp)
        · rename_i r htr
          split at h
          · split at h
            · exact ihB _ _ _ _ _ _ _ _ h
            · simp only [Option.some.injEq, Prod.mk.injEq] at h
              obtain ⟨-, -, -, hsig⟩ := h
              subst hsig; simp
          · rename_i hne
            simp only [Option.some.injEq, Prod.mk.injEq] at h
            obtain ⟨-, -, -, hsig⟩ := h
            subst hsig
            intro hc
            injection hc with hc
            exact hcore _ _ _ _ _ _ _ htr hc
    · -- whileLoop
      intro i cond body env st n s o h
      rcases i with - | i
      · simp only [engine, engineStep] at h
        simp only [Option.some.injEq, Prod.mk.injEq] at h
        obtain ⟨-, -, ho⟩ := h
        subst ho; simp
      · match i with
        | 0 =>
          simp only [engine, engineStep] at h
          split at h
          · rename_i er he
            simp only [Option.some.injEq, Prod.mk.injEq] at h
            obtain ⟨-, -, ho⟩ := h
            subst ho
            intro hc
            injection hc with hc
            exact evalExpr_ne_unreachable _ _ _ _ he hc
          · split at h
            · exact ihWB _ _ _ _ _ _ _ h
            · simp only [Option.some.injEq, Prod.mk.injEq] at h
              obtain ⟨-, -, ho⟩ := h
              subst ho; simp
        | 1 =>
          simp only [engine, engineStep] at h
          exact ihWB _ _ _ _ _ _ _ h
        | m + 2 =>
          simp only [engine, engineStep] at h
          simp only [Option.some.injEq, Prod.mk.injEq] at h
          obtain ⟨-, -, ho⟩ := h
          subst ho; simp
    · -- whileBodyStep
      intro cond body env st n s o h
      simp only [engine, engineStep] at h
      split at h
      · exact absurd h (by simp)
      · rename_i r htr
        split at h
        · split at h
          · exact ihW _ _ _ _ _ _ _ _ h
          · exact ihW _ _ _ _ _ _ _ _ h
        · rename_i hne
          simp only [Option.some.injEq, Prod.mk.injEq] at h
          obtain ⟨-, -, ho⟩ := h
          subst ho
          exact hcore _ _ _ _ _ _ _ htr
    · -- ifCondStep
      intro cond cv t el env st n s o h
      simp only [engine, engineStep] at h
      split at h
      · split at h
        · rename_i er he
          simp only [Option.some.injEq, Prod.mk.injEq] at h
          obtain ⟨-, -, ho⟩ := h
          subst ho
          intro hc
          injection hc with hc
          exact evalExpr_ne_unreachable _ _ _ _ he hc
        · exact ihD _ _ _ _ _ _ _ _ _ h
      · exact ihD _ _ _ _ _ _ _ _ _ h
    · -- ifDispatch
      intro cond cv t el env st n s o h
      simp only [engine, engineStep] at h
      split at h
      · exact ihT _ _ _ _ _ _ _ _ _ h
      · split at h
        · exact ihE _ _ _ _ _ _ _ _ _ h
        · simp only [Option.some.injEq, Prod.mk.injEq] at h
          obtain ⟨-, -, ho⟩ := h
          subst ho; simp
    · -- ifThenStep
      intro cond cv t el env st n s o h
      simp only [engine, engineStep] at h
      split at h
      · exact absurd h (by simp)
      · rename_i r htr
        split at h
        · simp only [Option.some.injEq, Prod.mk.injEq] at h
          obtain ⟨-, -, ho⟩ := h
          subst ho; simp
        · rename_i hne
          simp only [Option.some.injEq, Prod.mk.injEq] at h
          obtain ⟨-, -, ho⟩ := h
          subst ho
          exact hcore _ _ _ _ _ _ _ htr
    · -- ifElseStep
      intro cond cv t el env st n s o h
      cases el with
      | none =>
        simp only [engine, engineStep] at h
        simp only [Option.some.injEq, Prod.mk.injEq] at h
        obtain ⟨-, -, ho⟩ := h
        subst ho; simp
      | some eb =>
        simp only [engine, engineStep] at h
        split at h
        · exact absurd h (by simp)
        · rename_i r htr
          split at h
          · simp only [Option.some.injEq, Prod.mk.injEq] at h
            obtain ⟨-, -, ho⟩ := h
            subst ho; simp
          · rename_i hne
            simp only [Option.some.injEq, Prod.mk.injEq] at h
            obtain ⟨-, -, ho⟩ := h
            subst ho
            exact hcore _ _ _ _ _ _ _ htr

/-- A block's `resume` never returns normally: it either raises a signal
(yield, return, subtree-finished) or a runtime error. -/
theorem resume_block_ne_normal (fuel : Nat) (i : Option Nat)
    (stmts : List Resumable) (own : Bool) (e : Option EnvId) (env : EnvId)
    (st : RState) (n : Resumable) (s : RState) (o : Outcome)
    (h : Resumable.resume fuel (.block i stmts own e) env st = some (n, s, o)) :
    o ≠ .normal := by
  cases fuel with
  | zero => simp [Resumable.resume, engine, engineBot] at h
  | succ fuel =>
    cases i with
    | none =>
      simp only [Resumable.resume, engine, engineStep] at h
      simp only [Option.some.injEq, Prod.mk.injEq] at h
      obtain ⟨-, -, ho⟩ := h
      subst ho; simp
    | some i =>
      simp only [Resumable.resume, engine, engineStep] at h
      split at h
      · exact absurd h (by simp)
      · rename_i res hbs
        split at h <;>
          (simp only [Option.some.injEq, Prod.mk.injEq] at h
           obtain ⟨-, -, ho⟩ := h) <;> subst ho
        · simp
        · intro hc
          subst hc
          exact engine_blockSteps_ne_normal fuel _ _ _ _ _ _ _ _ hbs rfl

/-- C10: a `resume` on a generator instance never falls through to the
trailing `RuntimeError("Unreachable state: ...")` branch: the root block's
`resume` always terminates by raising (a yield, a return, subtree-finished,
or a runtime error of the program — never a normal return), so
`Generator.resume` never produces the unreachable-state error. -/
theorem claim10_no_unreachable_state :
    (∀ (fuel : Nat) (i : Option Nat) (stmts : List Resumable) (own : Bool)
       (e : Option EnvId) (env : EnvId) (st : RState) (n : Resumable)
       (s : RState) (o : Outcome),
       Resumable.resume fuel (.block i stmts own e) env st = some (n, s, o) →
       o ≠ .normal) ∧
    (∀ (fuel : Nat) (g : Generator) (env : EnvId) (st : RState)
       (r : Generator × RState × GenResult),
       (∃ i stmts own e, g.body = .block i stmts own e) →
       Generator.resume fuel g env st = some r →
       r.2.2 ≠ .error .unreachableState) := by
  constructor
  · exact fun fuel i stmts own e env st n s o h =>
      resume_block_ne_normal fuel i stmts own e env st n s o h
  · intro fuel g env st r hshape hres
    obtain ⟨i, stmts, own, e, hbody⟩ := hshape
    simp only [Generator.resume] at hres
    split at hres
    · simp only [Option.some.injEq] at hres
      subst hres
      simp
    · split at hres
      · simp only [Option.some.injEq] at hres
        subst hres
        simp
      · split at hres
        · exact absurd hres (by simp)
        · rename_i res body2 st2 out hrr
          cases out with
          | yielded v d =>
            simp only [Option.some.injEq] at hres
            subst hres
            simp
          | returned v hv =>
            simp only [Option.some.injEq] at hres
            subst hres
            simp
          | finished =>
            simp only [Option.some.injEq] at hres
            subst hres
            simp
          | error er =>
            simp only [Option.some.injEq] at hres
            subst hres
            simp only [ne_eq, GenResult.error.injEq]
            intro hc
            subst hc
            exact (engine_ne_unreachable fuel).1 _ _ _ _ _ _ hrr rfl
          | normal =>
            rw [hbody] at hrr
            exact absurd rfl (resume_block_ne_normal fuel _ _ _ _ _ _ _ _ _ hrr)

/-- Witness for C10 at a concrete instance (a block-bodied, exhausted
instance, whose resume raises `StopIteration`, not the unreachable-state
error). -/
theorem claim10_no_unreachable_state_witness :
    Generator.resume 10 exhaustedInstance 0 ⟨exhaustedHeap, []⟩ =
      some (exhaustedInstance, ⟨exhaustedHeap, []⟩, .stopIteration .null) ∧
    GenResult.stopIteration .null ≠ .error .unreachableState :=
  ⟨by rfl,
   claim10_no_unreachable_state.2 10 exhaustedInstance 0 ⟨exhaustedHeap, []⟩
     (exhaustedInstance, ⟨exhaustedHeap, []⟩, .stopIteration .null)
     ⟨none, [.yieldStmt (.literal (.int 0))], false, none, rfl⟩ (by rfl)⟩

/-! ## Helper lemmas for C4 -/

/-- `_execute_if_branch` neither reads the condition expression nor the
cached condition value: its observable behaviour is identical for any two
stored values. -/
theorem ifThenStep_obs (fuel : Nat) (c c2 : Expression) (cv cv2 : Value)
    (t : Resumable) (el : Option Resumable) (env : EnvId) (st : RState) :
    ifObs ((engine fuel).ifThenStep c cv t el env st) =
      ifObs ((engine fuel).ifThenStep c2 cv2 t el env st) := by
  cases fuel with
  | zero => simp [engine, engineBot]
  | succ fuel =>
    simp only [engine, engineStep]
    cases htr : tryRunCore ((engine fuel).resume t env st) (some 1) (some 3) false with
    | none => simp [htr]
    | some r =>
      obtain ⟨rc, rs, rp, rd, rsig⟩ := r
      cases rsig <;> simp [htr, ifObs]

/-- `_execute_else_branch` likewise ignores the condition expression and the
cached condition value. -/
theorem ifElseStep_obs (fuel : Nat) (c c2 : Expression) (cv cv2 : Value)
    (t : Resumable) (el : Option Resumable) (env : EnvId) (st : RState) :
    ifObs ((engine fuel).ifElseStep c cv t el env st) =
      ifObs ((engine fuel).ifElseStep c2 cv2 t el env st) := by
  cases fuel with
  | zero => simp [engine, engineBot]
  | succ fuel =>
    simp only [engine, engineStep]
    cases el with
    | none => simp [ifObs]
    | some eb =>
      cases htr : tryRunCore ((engine fuel).resume eb env st) (some 2) (some 3) false with
      | none => simp [htr]
      | some r =>
        obtain ⟨rc, rs, rp, rd, rsig⟩ := r
        cases rsig <;> simp [htr, ifObs]

/-- Once the condition value is decided, the dispatch depends on that value
only — never on the condition expression. -/
theorem ifDispatch_obs (fuel : Nat) (c c2 : Expression) (cv : Value)
    (t : Resumable) (el : Option Resumable) (env : EnvId) (st : RState) :
    ifObs ((engine fuel).ifDispatch c cv t el env st) =
      ifObs ((engine fuel).ifDispatch c2 cv t el env st) := by
  cases fuel with
  | zero => simp [engine, engineBot]
  | succ fuel =>
    simp only [engine, engineStep]
    by_cases htv : truthy cv = true
    · simp only [if_pos htv]
      exact ifThenStep_obs fuel c c2 cv cv t el env st
    · simp only [if_neg htv]
      cases el with
      | none => simp [ifObs]
      | some eb => exact ifElseStep_obs fuel c c2 cv cv t (some eb) env st

/-- The result node of `_execute_if_branch` keeps the cached condition value
it was given. -/
theorem ifThenStep_cv (fuel : Nat) (c : Expression) (cv : Value)
    (t : Resumable) (el : Option Resumable) (env : EnvId) (st : RState)
    (n : Resumable) (s : RState) (o : Outcome)
    (h : (engine fuel).ifThenStep c cv t el env st = some (n, s, o)) :
    conditionValueOf n = some cv := by
  cases fuel with
  | zero => simp [engine, engineBot] at h
  | succ fuel =>
    simp only [engine, engineStep] at h
    split at h
    · exact absurd h (by simp)
    · rename_i r htr
      split at h <;>
        (simp only [Option.some.injEq, Prod.mk.injEq] at h
         obtain ⟨hn, -, -⟩ := h) <;> subst hn <;> rfl

/-- The result node of `_execute_else_branch` keeps the cached condition
value it was given. -/
theorem ifElseStep_cv (fuel : Nat) (c : Expression) (cv : Value)
    (t : Resumable) (el : Option Resumable) (env : EnvId) (st : RState)
    (n : Resumable) (s : RState) (o : Outcome)
    (h : (engine fuel).ifElseStep c cv t el env st = some (n, s, o)) :
    conditionValueOf n = some cv := by
  cases fuel with
  | zero => simp [engine, engineBot] at h
  | succ fuel =>
    cases el with
    | none =>
      simp only [engine, engineStep] at h
      simp only [Option.some.injEq, Prod.mk.injEq] at h
      obtain ⟨hn, -, -⟩ := h
      subst hn; rfl
    | some eb =>
      simp only [engine, engineStep] at h
      split at h
      · exact absurd h (by simp)
      · rename_i r htr
        split at h <;>
          (simp only [Option.some.injEq, Prod.mk.injEq] at h
           obtain ⟨hn, -, -⟩ := h) <;> subst hn <;> rfl

/-- The result node of the dispatch keeps the decided condition value. -/
theorem ifDispatch_cv (fuel : Nat) (c : Expression) (cv : Value)
    (t : Resumable) (el : Option Resumable) (env : EnvId) (st : RState)
    (n : Resumable) (s : RState) (o : Outcome)
    (h : (engine fuel).ifDispatch c cv t el env st = some (n, s, o)) :
    conditionValueOf n = some cv := by
  cases fuel with
  | zero => simp [engine, engineBot] at h
  | succ fuel =>
    simp only [engine, engineStep] at h
    split at h
    · exact ifThenStep_cv fuel c cv t el env st n s o h
    · split at h
      · rename_i eb
        exact ifElseStep_cv fuel c cv t (some eb) env st n s o h
      · simp only [Option.some.injEq, Prod.mk.injEq] at h
        obtain ⟨hn, -, -⟩ := h
        subst hn; rfl

/-- C4: an `If` node evaluates its condition once per activation and caches
the decision.  (1)–(2) Re-entering an `If` suspended inside its then or else
branch (cursor `1` or `2`) dispatches straight back into that branch: the
result cannot depend on the condition expression or the cached value at all
(stated as invariance under replacing them).  (3) Re-entering at cursor `0`
with a cached (non-null) value never re-evaluates the condition either: the
result is invariant under replacing the condition expression.  (4) The first
pass caches the evaluated value in `_condition_value`.  (5) A full concrete
activation (`if c { yield 1; yield 2; } else { yield 3; }` with `c = true`)
performs three resumes that yield 1, yield 2 and finish, with exactly one
condition-evaluation trace event in total and nothing from the else branch:
exactly one branch is dispatched, and the node ends terminal. -/
theorem claim4_if_condition_once_and_cached :
    (∀ (fuel : Nat) (c c2 : Expression) (cv cv2 : Value) (t : Resumable)
       (el : Option Resumable) (env : EnvId) (st : RState),
       ifObs (Resumable.resume fuel (.ifStmt (some 1) c cv t el) env st) =
         ifObs (Resumable.resume fuel (.ifStmt (some 1) c2 cv2 t el) env st)) ∧
    (∀ (fuel : Nat) (c c2 : Expression) (cv cv2 : Value) (t : Resumable)
       (el : Option Resumable) (env : EnvId) (st : RState),
       ifObs (Resumable.resume fuel (.ifStmt (some 2) c cv t el) env st) =
         ifObs (Resumable.resume fuel (.ifStmt (some 2) c2 cv2 t el) env st)) ∧
    (∀ (fuel : Nat) (c c2 : Expression) (cv : Value) (t : Resumable)
       (el : Option Resumable) (env : EnvId) (st : RState), cv ≠ .null →
       ifObs (Resumable.resume fuel (.ifStmt (some 0) c cv t el) env st) =
         ifObs (Resumable.resume fuel (.ifStmt (some 0) c2 cv t el) env st)) ∧
    (∀ (fuel : Nat) (c : Expression) (v : Value) (t : Resumable)
       (el : Option Resumable) (env : EnvId) (st : RState) (n : Resumable)
       (s : RState) (o : Outcome),
       evalExpr st.heap env c = .ok v →
       Resumable.resume fuel (.ifStmt (some 0) c .null t el) env st =
         some (n, s, o) →
       conditionValueOf n = some v) ∧
    ifScenario = some ([.yielded (.int 1) false, .yielded (.int 2) false,
      .finished], [.ifCondition]) := by
  refine ⟨?_, ?_, ?_, ?_, by decide⟩
  · intro fuel c c2 cv cv2 t el env st
    cases fuel with
    | zero => simp [Resumable.resume, engine, engineBot]
    | succ fuel =>
      simp only [Resumable.resume, engine, engineStep]
      exact ifThenStep_obs fuel c c2 cv cv2 t el env st
  · intro fuel c c2 cv cv2 t el env st
    cases fuel with
    | zero => simp [Resumable.resume, engine, engineBot]
    | succ fuel =>
      simp only [Resumable.resume, engine, engineStep]
      exact ifElseStep_obs fuel c c2 cv cv2 t el env st
  · intro fuel c c2 cv t el env st hcv
    cases fuel with
    | zero => simp [Resumable.resume, engine, engineBot]
    | succ fuel =>
      simp only [Resumable.resume, engine, engineStep]
      cases fuel with
      | zero => simp [engine, engineBot]
      | succ fuel =>
        simp only [engine, engineStep]
        rw [if_neg hcv, if_neg hcv]
        exact ifDispatch_obs fuel c c2 cv t el env st
  · intro fuel c v t el env st n s o hev h
    cases fuel with
    | zero => simp [Resumable.resume, engine, engineBot] at h
    | succ fuel =>
      simp only [Resumable.resume, engine, engineStep] at h
      cases fuel with
      | zero => simp [engine, engineBot] at h
      | succ fuel =>
        simp only [engine, engineStep] at h
        simp only [if_true] at h
        rw [hev] at h
        exact ifDispatch_cv fuel c v t el env _ n s o h

/-- Witness for C4: the caching part at a concrete input (condition
`true`, then branch a bare yield — after the first resume the node holds
the cached value and sits at cursor 3), and the cached-dispatch part at a
cached value `true` with two different condition expressions. -/
theorem claim4_if_condition_once_and_cached_witness :
    conditionValueOf (.ifStmt (some 3) (.literal (.bool true)) (.bool true)
        (.yieldStmt (.literal (.int 1))) none) = some (.bool true) ∧
    ifObs (Resumable.resume 5
        (.ifStmt (some 0) (.var "p") (.bool true)
          (.yieldStmt (.literal (.int 1))) none) 0 ⟨globalHeap, []⟩) =
      ifObs (Resumable.resume 5
        (.ifStmt (some 0) (.var "q") (.bool true)
          (.yieldStmt (.literal (.int 1))) none) 0 ⟨globalHeap, []⟩) :=
  ⟨claim4_if_condition_once_and_cached.2.2.2.1 5 (.literal (.bool true))
      (.bool true) (.yieldStmt (.literal (.int 1))) none 0 ⟨globalHeap, []⟩
      (.ifStmt (some 3) (.literal (.bool true)) (.bool true)
        (.yieldStmt (.literal (.int 1))) none)
      ⟨globalHeap, [.ifCondition]⟩ (.yielded (.int 1) false) (by rfl) (by rfl),
   claim4_if_condition_once_and_cached.2.2.1 5 (.var "p") (.var "q")
      (.bool true) (.yieldStmt (.literal (.int 1))) none 0 ⟨globalHeap, []⟩
      (by decide)⟩

/-- C5: a `While` node re-evaluates its condition on every iteration and
resets its body between iterations.  (1) Every entry at cursor `0` logs and
evaluates the condition afresh (no cache field exists); when it is falsy the
node marks itself done and signals subtree completion.  (2) When it is
truthy the node enters `_execute_body`.  (3) When the body block completes
an iteration (`ResumableDone` caught by the dispatcher, which runs
`on_resumable_done = self.reset`), the while re-enters its condition with
the body reset; (4) resetting a scope-owning block sets its cursor back to
`0` and allocates a fresh *empty* private scope.  (5) Concretely, running
`while i < 2 { if i == 0 { var x = 5; } yield x; i = i + 1; }` over
`x = 99, i = 0` yields 5 then 99 then finishes: the condition is evaluated
once per iteration plus once for the final exit (three `whileCondition`
events), the body's `if` is re-dispatched fresh each iteration (two
`ifCondition` events), and the body-local `x` from iteration one is gone in
iteration two (the yield sees the outer `x = 99`). -/
theorem claim5_while_reevaluates_and_resets :
    (∀ (fuel : Nat) (c : Expression) (b : Resumable) (env : EnvId)
       (st : RState) (v : Value),
       evalExpr st.heap env c = .ok v → truthy v = false →
       Resumable.resume (fuel + 2) (.whileStmt (some 0) c b) env st =
         some (.whileStmt none c b,
           { st with trace := st.trace ++ [.whileCondition] }, .finished)) ∧
    (∀ (fuel : Nat) (c : Expression) (b : Resumable) (env : EnvId)
       (st : RState) (v : Value),
       evalExpr st.heap env c = .ok v → truthy v = true →
       Resumable.resume (fuel + 2) (.whileStmt (some 0) c b) env st =
         (engine fuel).whileBodyStep c b env
           { st with trace := st.trace ++ [.whileCondition] }) ∧
    (∀ (fuel : Nat) (c : Expression) (b : Resumable) (env : EnvId)
       (st : RState) (r : TryRunResult),
       tryRunCore ((engine fuel).resume b env st) (some 1) (some 0) true =
         some r →
       r.signal = .normal → r.invokedOnDone = true →
       (engine (fuel + 1)).whileBodyStep c b env st =
         (engine fuel).whileLoop (some 0) c
           (resetResumable r.child r.state.heap).1 env
           { r.state with heap := (resetResumable r.child r.state.heap).2 }) ∧
    (∀ (i : Option Nat) (stmts : List Resumable) (e : Option EnvId) (h : Heap),
       resetResumable (.block i stmts true e) h =
         (.block (some 0) (resetList stmts h).1 true
            (some (resetList stmts h).2.length),
          (resetList stmts h).2 ++ [Scope.mk none []])) ∧
    whileScenario = some ([.yielded (.int 5) false, .yielded (.int 99) false,
      .finished],
      [.whileCondition, .ifCondition, .onResumableDone,
       .whileCondition, .ifCondition, .onResumableDone, .whileCondition]) := by
  refine ⟨?_, ?_, ?_, ?_, by decide⟩
  · intro fuel c b env st v hev htv
    simp only [Resumable.resume, engine, engineStep]
    rw [hev]
    simp [htv]
  · intro fuel c b env st v hev htv
    simp only [Resumable.resume, engine, engineStep]
    rw [hev]
    simp [htv]
  · intro fuel c b env st r htr hsig hdone
    obtain ⟨rc, rs, rp, rd, rsig⟩ := r
    simp only at hsig hdone
    subst hsig
    subst hdone
    simp only [engine, engineStep]
    rw [htr]
    simp
  · intro i stmts e h
    rcases hres : resetList stmts h with ⟨a, b⟩
    simp [resetResumable, envAlloc, hres]

/-- Witness for C5: the falsy exit at a literal `false` condition, and the
body-completion reset at an empty (immediately finishing) body block. -/
theorem claim5_while_reevaluates_and_resets_witness :
    Resumable.resume 3
        (.whileStmt (some 0) (.literal (.bool false)) (.block (some 0) [] false none))
        0 ⟨globalHeap, []⟩ =
      some (.whileStmt none (.literal (.bool false)) (.block (some 0) [] false none),
        ⟨globalHeap, [.whileCondition]⟩, .finished) ∧
    (engine 3).whileBodyStep (.literal (.bool false)) (.block (some 0) [] false none)
        0 ⟨globalHeap, []⟩ =
      (engine 2).whileLoop (some 0) (.literal (.bool false))
        (resetResumable (.block none [] false none) globalHeap).1 0
        { heap := (resetResumable (.block none [] false none) globalHeap).2,
          trace := [.onResumableDone] } :=
  ⟨claim5_while_reevaluates_and_resets.1 1 (.literal (.bool false))
      (.block (some 0) [] false none) 0 ⟨globalHeap, []⟩ (.bool false)
      (by rfl) (by rfl),
   claim5_while_reevaluates_and_resets.2.2.1 2 (.literal (.bool false))
      (.block (some 0) [] false none) 0 ⟨globalHeap, []⟩
      ⟨.block none [] false none, ⟨globalHeap, [.onResumableDone]⟩, some 0,
        true, .normal⟩ (by rfl) (by rfl) (by rfl)⟩

/-! ## Helper lemmas for C7 -/

/-- After `store`, the stored key reads back the stored value. -/
theorem Scope.store_get_self (s : Scope) (k : String) (v : Value) :
    (s.store k v).get? k = some v := by
  have replace : ∀ (l : List (String × Value)), (l.lookup k).isSome = true →
      (l.map (fun kv => if kv.1 = k then (k, v) else kv)).lookup k = some v := by
    intro l
    induction l with
    | nil => simp
    | cons kv t ih =>
      obtain ⟨a, b⟩ := kv
      intro hsome
      by_cases hak : a = k
      · subst hak
        simp [List.lookup_cons]
      · have hka : (k == a) = false := beq_false_of_ne (fun hc => hak hc.symm)
        simp only [List.map_cons]
        rw [show (if (a, b).1 = k then (k, v) else (a, b)) = (a, b) from if_neg hak]
        simp only [List.lookup_cons, hka] at hsome ⊢
        exact ih (by simpa using hsome)
  have append : ∀ (l : List (String × Value)), (l.lookup k).isSome = false →
      (l ++ [(k, v)]).lookup k = some v := by
    intro l
    induction l with
    | nil => simp [List.lookup_cons]
    | cons kv t ih =>
      obtain ⟨a, b⟩ := kv
      intro hnone
      by_cases hak : a = k
      · subst hak
        simp [List.lookup_cons] at hnone
      · have hka : (k == a) = false := beq_false_of_ne (fun hc => hak hc.symm)
        simp only [List.cons_append, List.lookup_cons, hka] at hnone ⊢
        exact ih (by simpa using hnone)
  unfold Scope.store Scope.get?
  by_cases hs : (s.keyValues.lookup k).isSome
  · rw [if_pos hs]
    exact replace s.keyValues hs
  · rw [if_neg hs]
    exact append s.keyValues (Bool.eq_false_iff.mpr hs)

/-- `envWrite` lands exactly on the first scope of the parent chain that
already contains the key (`chainFirst`), and fails exactly when there is
none. -/
theorem envWrite_eq_chainFirst (k : String) (v : Value) :
    ∀ (fuel : Nat) (h : Heap) (i : EnvId),
      (envWrite fuel h i k v = none ↔ chainFirst fuel h i k = none) ∧
      (∀ j, chainFirst fuel h i k = some j →
        ∃ s, h[j]? = some s ∧ (s.keyValues.lookup k).isSome = true ∧
          envWrite fuel h i k v = some (h.set j (s.store k v))) := by
  intro fuel
  induction fuel with
  | zero => intro h i; simp [envWrite, chainFirst]
  | succ fuel ih =>
    intro h i
    constructor
    · simp only [envWrite, chainFirst]
      cases hsc : h[i]? with
      | none => simp
      | some s =>
        by_cases hk : (s.keyValues.lookup k).isSome
        · simp [hk]
        · simp only [Bool.not_eq_true] at hk
          simp only [hk, Bool.false_eq_true, if_false]
          cases hp : s.parentEnv with
          | none => simp
          | some p => exact (ih h p).1
    · intro j hcf
      simp only [chainFirst] at hcf
      rw [show h[i]? = h[i]? from rfl] at hcf
      cases hsc : h[i]? with
      | none => rw [hsc] at hcf; simp at hcf
      | some s =>
        rw [hsc] at hcf
        simp only [] at hcf
        by_cases hk : (s.keyValues.lookup k).isSome
        · rw [if_pos hk] at hcf
          simp only [Option.some.injEq] at hcf
          subst hcf
          exact ⟨s, hsc, hk, by simp [envWrite, hsc, hk]⟩
        · rw [if_neg hk] at hcf
          cases hp : s.parentEnv with
          | none => rw [hp] at hcf; simp at hcf
          | some p =>
            rw [hp] at hcf
            obtain ⟨s2, hs2, hk2, hw2⟩ := (ih h p).2 j hcf
            refine ⟨s2, hs2, hk2, ?_⟩
            simp only [Bool.not_eq_true] at hk
            simp [envWrite, hsc, hk, hp, hw2]

/-- C7: environment scoping.  (1) `define` writes in the addressed scope
only: every other scope is untouched, (2) and afterwards the addressed
scope maps the name to the new value.  (3) An indexed write fails with the
undefined-variable condition exactly when no scope in the chain contains
the name, and (4) otherwise mutates precisely the first scope of the chain
(inclusive) that already contains it.  (5) Concretely, a nested block that
re-declares `x` leaves the outer `x = 1` unchanged after it exits, while a
nested block assigning `x` without declaring it mutates the enclosing
binding to `2`. -/
theorem claim7_environment_scoping :
    (∀ (h : Heap) (i : EnvId) (k : String) (v : Value) (j : Nat), j ≠ i →
       (envDefine h i k v)[j]? = h[j]?) ∧
    (∀ (h : Heap) (i : EnvId) (k : String) (v : Value) (s : Scope),
       h[i]? = some s →
       (envDefine h i k v)[i]? = some (s.store k v) ∧
       (s.store k v).get? k = some v) ∧
    (∀ (fuel : Nat) (h : Heap) (i : EnvId) (k : String) (v : Value),
       envWrite fuel h i k v = none ↔ chainFirst fuel h i k = none) ∧
    (∀ (fuel : Nat) (h : Heap) (i : EnvId) (k : String) (v : Value) (j : Nat),
       chainFirst fuel h i k = some j →
       ∃ s, h[j]? = some s ∧ (s.keyValues.lookup k).isSome = true ∧
         envWrite fuel h i k v = some (h.set j (s.store k v))) ∧
    (shadowScenario innerRedeclare = some (.finished, some (.int 1)) ∧
     shadowScenario innerAssign = some (.finished, some (.int 2))) := by
  refine ⟨?_, ?_, ?_, ?_, by decide⟩
  · intro h i k v j hji
    unfold envDefine
    cases hsc : h[i]? with
    | none => rfl
    | some s => exact List.getElem?_set_ne (fun hc => hji hc.symm)
  · intro h i k v s hsc
    constructor
    · unfold envDefine
      rw [hsc]
      exact List.getElem?_set_eq_of_lt _ (by
        exact (List.getElem?_eq_some_iff.mp hsc).1)
    · exact Scope.store_get_self s k v
  · intro fuel h i k v
    exact (envWrite_eq_chainFirst k v fuel h i).1
  · intro fuel h i k v j
    exact (envWrite_eq_chainFirst k v fuel h i).2 j

/-- Witness for C7 at concrete inputs: `define` shadows locally without
touching the parent scope, and a chain write on a two-scope heap lands in
the parent scope that holds the binding. -/
theorem claim7_environment_scoping_witness :
    (envDefine [Scope.mk none [("x", .int 1)], Scope.mk (some 0) []] 1 "x"
        (.int 2))[0]? = some (Scope.mk none [("x", .int 1)]) ∧
    ((Scope.mk (some 0) []).store "y" (.int 3)).get? "y" = some (.int 3) ∧
    envWrite 3 [Scope.mk none [("x", .int 1)], Scope.mk (some 0) []] 1 "x"
        (.int 2) =
      some [Scope.mk none [("x", .int 2)], Scope.mk (some 0) []] := by
  refine ⟨claim7_environment_scoping.1 _ 1 "x" (.int 2) 0 (by decide), ?_, ?_⟩
  · exact (claim7_environment_scoping.2.1
      [Scope.mk (some 0) []] 0 "y" (.int 3) (Scope.mk (some 0) []) rfl).2
  · obtain ⟨s, hs, -, hw⟩ := claim7_environment_scoping.2.2.2.1 3
      [Scope.mk none [("x", .int 1)], Scope.mk (some 0) []] 1 "x" (.int 2) 0
      (by decide)
    rw [hw]
    have hseq := show some (Scope.mk none [("x", Value.int 1)]) = some s from hs
    injection hseq with hseq
    subst hseq
    rfl

/-! ## Helper lemma for C8 -/

/-- The duplicate-parameter scan finds a duplicate exactly when the
parameter list is not `Nodup`. -/
theorem hasDuplicateParams_iff (l : List String) :
    hasDuplicateParams l = true ↔ ¬ l.Nodup := by
  induction l with
  | nil => simp [hasDuplicateParams]
  | cons p rest ih =>
    simp [hasDuplicateParams, List.nodup_cons, ih, List.elem_iff]
    tauto

/-- C8: argument validation and duplicate-parameter rejection.  (1)
Instantiation validates successfully exactly when the argument names cover
the declared parameter names exactly (as sets); (2) a validation failure is
always one of the two arity errors (required-missing / unexpected-extra);
(3) whenever the names mismatch, `Generator.new` returns that arity error
as its entire result — no clone is made, no environment allocated, no body
statement run; (4) duplicate parameter names are rejected when the
`Generator` is constructed, (5) and construction succeeds untouched
otherwise — so the duplicate check happens at compile time, not at call
time (validation, by (2), never reports duplicates). -/
theorem claim8_arity_and_duplicates :
    (∀ (params : List String) (args : List (String × Value)),
       validateCallArgs params (some args) = .ok args ↔
         argsMatch params (args.map Prod.fst) = true) ∧
    (∀ (params : List String) (args : List (String × Value)) (e : RError),
       validateCallArgs params (some args) = .error e →
       ∃ ns, e = .missingArguments ns ∨ e = .unexpectedArguments ns) ∧
    (∀ (g : Generator) (args : List (String × Value)) (h : Heap),
       argsMatch g.params (args.map Prod.fst) = false →
       ∃ e, Generator.new g (some args) h = .error e ∧
         ∃ ns, e = .missingArguments ns ∨ e = .unexpectedArguments ns) ∧
    (∀ (name : String) (params : List String) (body : Resumable),
       Generator.make name params body = .error (.duplicateParameters params)
         ↔ ¬ params.Nodup) ∧
    (∀ (name : String) (params : List String) (body : Resumable),
       Generator.make name params body =
         .ok ⟨name, params, body, some 0, none⟩ ↔ params.Nodup) := by
  have hval : ∀ (params : List String) (args : List (String × Value)),
      validateCallArgs params (some args) = .ok args ↔
        argsMatch params (args.map Prod.fst) = true := by
    intro params args
    simp only [validateCallArgs]
    constructor
    · intro h
      split at h
      · split at h
        · rename_i h1 h2
          rw [List.isEmpty_iff, List.filter_eq_nil_iff] at h1 h2
          simp only [argsMatch, Bool.and_eq_true, List.all_eq_true]
          constructor
          · intro p hp
            by_contra hc
            exact (h1 p hp) (by simpa using hc)
          · intro a ha
            by_contra hc
            exact (h2 a ha) (by simpa using hc)
        · exact absurd h (by simp)
      · exact absurd h (by simp)
    · intro h
      simp only [argsMatch, Bool.and_eq_true, List.all_eq_true] at h
      obtain ⟨hmiss, hextra⟩ := h
      have h1 : (params.filter fun p => !(args.map Prod.fst).contains p) = [] :=
        List.filter_eq_nil_iff.mpr (fun p hp => by simpa using hmiss p hp)
      have h2 : ((args.map Prod.fst).filter fun a => !params.contains a) = [] :=
        List.filter_eq_nil_iff.mpr (fun a ha => by simpa using hextra a ha)
      rw [h1, h2]
      simp
  have herr : ∀ (params : List String) (args : List (String × Value)) (e : RError),
      validateCallArgs params (some args) = .error e →
      ∃ ns, e = .missingArguments ns ∨ e = .unexpectedArguments ns := by
    intro params args e h
    simp only [validateCallArgs] at h
    split at h
    · split at h
      · exact absurd h (by simp)
      · simp only [Except.error.injEq] at h
        exact ⟨_, Or.inr h.symm⟩
    · simp only [Except.error.injEq] at h
      exact ⟨_, Or.inl h.symm⟩
  refine ⟨hval, herr, ?_, ?_, ?_⟩
  · intro g args h hmismatch
    cases hv : validateCallArgs g.params (some args) with
    | ok res =>
      have hres : res = args := by
        simp only [validateCallArgs] at hv
        split at hv
        · split at hv
          · simp only [Except.ok.injEq] at hv
            exact hv.symm
          · exact absurd hv (by simp)
        · exact absurd hv (by simp)
      rw [hres] at hv
      rw [hval g.params args] at hv
      rw [hv] at hmismatch
      cases hmismatch
    | error e =>
      refine ⟨e, ?_, herr g.params args e hv⟩
      simp only [Generator.new, bind, Except.bind, hv]
  · intro name params body
    simp only [Generator.make]
    constructor
    · intro h
      split at h
      · rename_i hd
        exact (hasDuplicateParams_iff params).mp hd
      · exact absurd h (by simp)
    · intro h
      rw [if_pos ((hasDuplicateParams_iff params).mpr h)]
  · intro name params body
    simp only [Generator.make]
    constructor
    · intro h
      split at h
      · exact absurd h (by simp)
      · rename_i hd
        simp only [Bool.not_eq_true] at hd
        by_contra hc
        rw [← hasDuplicateParams_iff params] at hc
        simp [hd] at hc
    · intro h
      rw [if_neg (by simp [hasDuplicateParams_iff, h])]

/-- Witness for C8: `range`'s parameter validation succeeds on exact
argument names, a call with a missing argument fails with the arity error,
and a duplicate parameter list is rejected at construction. -/
theorem claim8_arity_and_duplicates_witness :
    validateCallArgs ["start", "end"]
        (some [("start", Value.int 0), ("end", Value.int 3)]) =
      .ok [("start", Value.int 0), ("end", Value.int 3)] ∧
    (∃ e, Generator.new rangeGen (some [("start", Value.int 0)]) globalHeap =
        .error e ∧
      ∃ ns, e = .missingArguments ns ∨ e = .unexpectedArguments ns) ∧
    (Generator.make "g" ["x", "x"] (.block (some 0) [] false none) =
      .error (.duplicateParameters ["x", "x"])) :=
  ⟨(claim8_arity_and_duplicates.1 ["start", "end"]
      [("start", Value.int 0), ("end", Value.int 3)]).mpr (by decide),
   claim8_arity_and_duplicates.2.2.1 rangeGen [("start", Value.int 0)]
      globalHeap (by decide),
   (claim8_arity_and_duplicates.2.2.2.1 "g" ["x", "x"]
      (.block (some 0) [] false none)).mpr (by decide)⟩

end ResumableEngine
